import Mathlib

/-!
# Wayland window-system integration: swapchain, format catalog and surface queries

A shallow embedding of `src/vulkan/wsi/wsi_common_wayland.c`.

Conventions of the embedding.

* Handles (`VkImage`, `VkDeviceMemory`, `wl_buffer *`, `wl_event_queue *`) are natural
  numbers; a nullable handle is an `Option`.
* The flexible array `images[0 .. image_count)` of a swapchain is a list; `image_count`
  is its length.
* The Wayland transport is the environment.  Every call of a dispatching function
  (`wl_display_dispatch_queue_pending`, `wl_display_roundtrip_queue`,
  `wl_display_dispatch_queue`) is described by a `Dispatch`: the events whose listeners
  ran during the call, in order, and the integer the call returned.  A function that
  loops over blocking dispatches takes the list of the dispatches the transport will
  perform; when the list ends while the loop is still waiting, the call has not
  returned (`Status.blocked`).
* `assert` is modelled as in a build with assertions enabled: a failed assertion ends
  the call, with `Status.assert_failed` or, in construction, with `none`.
* Enumerators carry the values of the Vulkan and wl_drm headers.
-/

namespace WsiWayland

/-! ## Header constants -/

abbrev VkResult := Int
abbrev VkFormat := Nat
abbrev VkPresentModeKHR := Nat
abbrev VkColorSpaceKHR := Nat

def VK_SUCCESS : VkResult := 0
def VK_INCOMPLETE : VkResult := 5
def VK_ERROR_OUT_OF_HOST_MEMORY : VkResult := -1
def VK_ERROR_INITIALIZATION_FAILED : VkResult := -3
def VK_ERROR_OUT_OF_DATE_KHR : VkResult := -1000001004

def VK_PRESENT_MODE_IMMEDIATE_KHR : VkPresentModeKHR := 0
def VK_PRESENT_MODE_MAILBOX_KHR : VkPresentModeKHR := 1
def VK_PRESENT_MODE_FIFO_KHR : VkPresentModeKHR := 2

def VK_COLORSPACE_SRGB_NONLINEAR_KHR : VkColorSpaceKHR := 0

def VK_FORMAT_B8G8R8_UNORM : VkFormat := 30
def VK_FORMAT_B8G8R8_SRGB : VkFormat := 36
def VK_FORMAT_B8G8R8A8_UNORM : VkFormat := 44
def VK_FORMAT_B8G8R8A8_SRGB : VkFormat := 50

def VK_FORMAT_FEATURE_COLOR_ATTACHMENT_BIT : Nat := 0x80

def VK_COMPOSITE_ALPHA_OPAQUE_BIT_KHR : Nat := 1
def VK_COMPOSITE_ALPHA_PRE_MULTIPLIED_BIT_KHR : Nat := 2

def VK_STRUCTURE_TYPE_SWAPCHAIN_CREATE_INFO_KHR : Nat := 1000001000

def WL_DRM_FORMAT_XRGB8888 : Nat := 0x34325258
def WL_DRM_FORMAT_ARGB8888 : Nat := 0x34325241
def WL_DRM_FORMAT_BGRX8888 : Nat := 0x34325842

def WL_DRM_CAPABILITY_PRIME : Nat := 1

/-! ## Transport events -/

/-- Events that can be queued on a swapchain's private event queue: `wl_buffer.release`
for the buffer of an image slot, and `wl_callback.done` for a frame callback. -/
inductive wl_event where
  | buffer_release (slot : Nat)
  | frame_done
  deriving DecidableEq, Repr

/-- One call of a dispatching transport function: the events whose listeners ran, in
order, and the value the call returned (negative on failure). -/
structure Dispatch where
  events : List wl_event
  ret : Int
  deriving DecidableEq, Repr

/-- How a call ended. -/
inductive Status where
  | returned (r : VkResult)
  | blocked
  | assert_failed
  deriving DecidableEq, Repr

/-- Requests sent on the window surface and the connection by `queue_present`. -/
inductive wl_request where
  | surface_attach (buffer : Option Nat)
  | surface_damage
  | surface_frame
  | surface_commit
  | display_flush
  deriving DecidableEq, Repr

/-! ## Data model -/

/-- The per-connection record `struct wsi_wl_display`. -/
structure wsi_wl_display where
  display : Nat
  drm : Option Nat
  formats : List VkFormat
  capabilities : Nat
  deriving DecidableEq, Repr

/-- The image slot `struct wsi_wl_image`. -/
structure wsi_wl_image where
  image : Nat
  memory : Nat
  buffer : Option Nat
  busy : Bool
  deriving DecidableEq, Repr

/-- The swapchain `struct wsi_wl_swapchain`; `present_mode` is `base.present_mode`, the
field the code reads. -/
structure wsi_wl_swapchain where
  present_mode : VkPresentModeKHR
  display : Option wsi_wl_display
  queue : Option Nat
  surface : Nat
  extent : Nat × Nat
  vk_format : VkFormat
  drm_format : Nat
  fifo_ready : Bool
  images : List wsi_wl_image
  deriving DecidableEq, Repr

/-- The field `image_count`: the number of slots of the trailing array. -/
def wsi_wl_swapchain.image_count (chain : wsi_wl_swapchain) : Nat :=
  chain.images.length

/-- Store `b` in `images[i].busy`. -/
def set_busy : List wsi_wl_image → Nat → Bool → List wsi_wl_image
  | [], _, _ => []
  | im :: rest, 0, b => { im with busy := b } :: rest
  | im :: rest, i + 1, b => im :: set_busy rest i b

/-- Number of slots whose busy flag is set. -/
def busy_count (images : List wsi_wl_image) : Nat :=
  images.countP (fun im => im.busy)

/-! ## Event listeners -/

/-- Listener `buffer_handle_release`, registered with the image slot as its data:
`image->busy = false`. -/
def buffer_handle_release (chain : wsi_wl_swapchain) (slot : Nat) : wsi_wl_swapchain :=
  { chain with images := set_busy chain.images slot false }

/-- Listener `frame_handle_done`: `chain->fifo_ready = true`. -/
def frame_handle_done (chain : wsi_wl_swapchain) : wsi_wl_swapchain :=
  { chain with fifo_ready := true }

/-- Run the listener of one event. -/
def handle_event (chain : wsi_wl_swapchain) : wl_event → wsi_wl_swapchain
  | wl_event.buffer_release slot => buffer_handle_release chain slot
  | wl_event.frame_done => frame_handle_done chain

/-- Run the listeners of the events of one dispatch, in order. -/
def dispatch_events (chain : wsi_wl_swapchain) (events : List wl_event) : wsi_wl_swapchain :=
  events.foldl handle_event chain

/-! ## acquire_next_image -/

/-- What `wsi_wl_swapchain_acquire_next_image` leaves behind: how it ended, the value it
stored through `image_index` (if it stored one), the swapchain, and the events whose
listeners ran during the call. -/
structure AcquireOutcome where
  status : Status
  image_index : Option Nat
  chain : wsi_wl_swapchain
  handled : List wl_event
  deriving DecidableEq, Repr

/-- The `for` loop of acquire: the first slot, from index `i` on, whose busy flag is
clear. -/
def acquire_scan : List wsi_wl_image → Nat → Option Nat
  | [], _ => none
  | im :: rest, i => if !im.busy then some i else acquire_scan rest (i + 1)

/-- The `return VK_SUCCESS` branch of the scan: store the index and set the busy flag
of the slot found. -/
def acquire_found (chain : wsi_wl_swapchain) (handled : List wl_event) (i : Nat) :
    AcquireOutcome :=
  { status := Status.returned VK_SUCCESS
    image_index := some i
    chain := { chain with images := set_busy chain.images i true }
    handled := handled }

/-- The `while (1)` loop of acquire. The list holds the blocking
`wl_display_roundtrip_queue` calls the transport will perform. -/
def acquire_loop : wsi_wl_swapchain → List wl_event → List Dispatch → AcquireOutcome
  | chain, handled, [] =>
    match acquire_scan chain.images 0 with
    | some i => acquire_found chain handled i
    | none =>
      { status := Status.blocked, image_index := none, chain := chain, handled := handled }
  | chain, handled, d :: rest =>
    match acquire_scan chain.images 0 with
    | some i => acquire_found chain handled i
    | none =>
      if d.ret < 0 then
        { status := Status.returned VK_ERROR_OUT_OF_DATE_KHR
          image_index := none
          chain := dispatch_events chain d.events
          handled := handled ++ d.events }
      else
        acquire_loop (dispatch_events chain d.events) (handled ++ d.events) rest

/-- The function `wsi_wl_swapchain_acquire_next_image`. `pending` is the call of
`wl_display_dispatch_queue_pending`; `timeout` is accepted and never read. -/
def wsi_wl_swapchain_acquire_next_image (chain : wsi_wl_swapchain) (_timeout : Nat)
    (pending : Dispatch) (roundtrips : List Dispatch) : AcquireOutcome :=
  if pending.ret < 0 then
    { status := Status.returned VK_ERROR_OUT_OF_DATE_KHR
      image_index := none
      chain := dispatch_events chain pending.events
      handled := pending.events }
  else
    acquire_loop (dispatch_events chain pending.events) pending.events roundtrips

/-! ## queue_present -/

/-- What `wsi_wl_swapchain_queue_present` leaves behind; `passed_wait` tells whether
the call got past the frame-locked wait. -/
structure PresentOutcome where
  status : Status
  chain : wsi_wl_swapchain
  handled : List wl_event
  requests : List wl_request
  passed_wait : Bool
  deriving DecidableEq, Repr

/-- The loop `while (!chain->fifo_ready)` of present. The first component is `none`
when the loop was left with the flag set, and the status that ended the call
otherwise: out-of-date when a dispatch failed, blocked when the transport's dispatches
ran out with the flag still clear. -/
def fifo_wait : wsi_wl_swapchain → List wl_event → List Dispatch →
    Option Status × wsi_wl_swapchain × List wl_event
  | chain, handled, [] =>
    if chain.fifo_ready then (none, chain, handled)
    else (some Status.blocked, chain, handled)
  | chain, handled, d :: rest =>
    if chain.fifo_ready then (none, chain, handled)
    else if d.ret < 0 then
      (some (Status.returned VK_ERROR_OUT_OF_DATE_KHR), dispatch_events chain d.events,
        handled ++ d.events)
    else
      fifo_wait (dispatch_events chain d.events) (handled ++ d.events) rest

/-- The part of present after the wait step. -/
def present_commit (chain : wsi_wl_swapchain) (image_index : Nat)
    (handled : List wl_event) : PresentOutcome :=
  if image_index < chain.image_count then
    let buffer := (chain.images.get? image_index).bind (fun im => im.buffer)
    let fifo := chain.present_mode == VK_PRESENT_MODE_FIFO_KHR
    { status := Status.returned VK_SUCCESS
      chain :=
        { chain with
          fifo_ready := if fifo then false else chain.fifo_ready
          images := set_busy chain.images image_index true }
      handled := handled
      requests :=
        [wl_request.surface_attach buffer, wl_request.surface_damage] ++
          (if fifo then [wl_request.surface_frame] else []) ++
          [wl_request.surface_commit, wl_request.display_flush]
      passed_wait := true }
  else
    { status := Status.assert_failed, chain := chain, handled := handled, requests := [],
      passed_wait := true }

/-- The function `wsi_wl_swapchain_queue_present`. `dispatches` are the blocking
`wl_display_dispatch_queue` calls the transport will perform. -/
def wsi_wl_swapchain_queue_present (chain : wsi_wl_swapchain) (image_index : Nat)
    (dispatches : List Dispatch) : PresentOutcome :=
  if chain.present_mode == VK_PRESENT_MODE_FIFO_KHR then
    match fifo_wait chain [] dispatches with
    | (none, chain1, handled) => present_commit chain1 image_index handled
    | (some status, chain1, handled) =>
      { status := status, chain := chain1, handled := handled, requests := [],
        passed_wait := false }
  else
    present_commit chain image_index []

/-! ## Swapchain construction and teardown -/

/-- The function `wl_drm_format_for_vk_format`; `none` is the failed `assert` of the
`default` case. -/
def wl_drm_format_for_vk_format (vk_format : VkFormat) (alpha : Bool) : Option Nat :=
  if vk_format = VK_FORMAT_B8G8R8_UNORM ∨ vk_format = VK_FORMAT_B8G8R8_SRGB then
    some WL_DRM_FORMAT_BGRX8888
  else if vk_format = VK_FORMAT_B8G8R8A8_UNORM ∨ vk_format = VK_FORMAT_B8G8R8A8_SRGB then
    some (if alpha then WL_DRM_FORMAT_ARGB8888 else WL_DRM_FORMAT_XRGB8888)
  else
    none

/-- The surface `VkIcdSurfaceWayland`: connection handle and window handle. -/
structure VkIcdSurfaceWayland where
  display : Nat
  surface : Nat
  deriving DecidableEq, Repr

/-- The fields of `VkSwapchainCreateInfoKHR` that construction reads. -/
structure VkSwapchainCreateInfoKHR where
  sType : Nat
  minImageCount : Nat
  imageFormat : VkFormat
  imageExtent : Nat × Nat
  compositeAlpha : Nat
  presentMode : VkPresentModeKHR
  deriving DecidableEq, Repr

/-- Calls made on the external collaborators that release resources. -/
inductive Effect where
  | free_wsi_image (image memory : Nat)
  | vk_free_chain
  deriving DecidableEq, Repr

/-- What the collaborators answer during one construction.
`chain_alloc` is `vk_alloc`: `none` for a null block, otherwise the contents the fresh
block happens to hold in each slot. `display` is what `wsi_wl_get_display` returns,
`create_queue` what `wl_display_create_queue` returns. For slot `i`,
`create_wsi_image i` is the status of the external allocator with the image and memory
handles it stores, and `create_prime_buffer i` the buffer handle the export yields. -/
structure CreateEnv where
  chain_alloc : Option (Nat → wsi_wl_image)
  display : Option wsi_wl_display
  create_queue : Option Nat
  create_wsi_image : Nat → VkResult × Nat × Nat
  create_prime_buffer : Nat → Option Nat

/-- The function `wsi_wl_image_init` for slot `slot`: the status it returns, the slot,
and the release calls it made. -/
def wsi_wl_image_init (env : CreateEnv) (slot : Nat) (im : wsi_wl_image) :
    VkResult × wsi_wl_image × List Effect :=
  match env.create_wsi_image slot with
  | (result, image, memory) =>
    let im1 : wsi_wl_image := { im with image := image, memory := memory }
    if result ≠ VK_SUCCESS then
      (result, im1, [])
    else
      let im2 : wsi_wl_image := { im1 with buffer := env.create_prime_buffer slot }
      match im2.buffer with
      | none => (result, im2, [Effect.free_wsi_image im2.image im2.memory])
      | some _ => (VK_SUCCESS, im2, [])

/-- The loop over the slots in construction, from slot `i` on. The first component is
`some result` when the loop left through `goto fail`, `none` when it ran to its end. -/
def init_images (env : CreateEnv) : Nat → List wsi_wl_image →
    Option VkResult × List wsi_wl_image × List Effect
  | _, [] => (none, [], [])
  | i, im :: rest =>
    match wsi_wl_image_init env i im with
    | (result, im1, effects) =>
      if result ≠ VK_SUCCESS then
        (some result, im1 :: rest, effects)
      else
        match init_images env (i + 1) rest with
        | (failed, rest1, effects1) =>
          (failed, { im1 with busy := false } :: rest1, effects ++ effects1)

/-- The loop of `wsi_wl_swapchain_destroy`: the external deallocator is called for the
slots whose buffer handle is not null. -/
def destroy_images : List wsi_wl_image → List Effect
  | [] => []
  | im :: rest =>
    match im.buffer with
    | some _ => Effect.free_wsi_image im.image im.memory :: destroy_images rest
    | none => destroy_images rest

/-- The function `wsi_wl_swapchain_destroy`. -/
def wsi_wl_swapchain_destroy (chain : wsi_wl_swapchain) : VkResult × List Effect :=
  (VK_SUCCESS, destroy_images chain.images ++ [Effect.vk_free_chain])

/-- What `wsi_wl_surface_create_swapchain` leaves behind: the status, the swapchain
stored through `swapchain_out` (if one was stored), and the release calls made. -/
structure CreateOutcome where
  result : VkResult
  swapchain_out : Option wsi_wl_swapchain
  effects : List Effect
  deriving DecidableEq, Repr

/-- The label `fail` of construction: destroy the swapchain and return `result`. -/
def create_fail (chain : wsi_wl_swapchain) (result : VkResult) (effects : List Effect) :
    CreateOutcome :=
  { result := result
    swapchain_out := none
    effects := effects ++ (wsi_wl_swapchain_destroy chain).2 }

/-- The function `wsi_wl_surface_create_swapchain`; `none` is a failed `assert`.
`minImageCount` is taken below `2 ^ 31`, where the conversions through `int` are the
identity. -/
def wsi_wl_surface_create_swapchain (surface : VkIcdSurfaceWayland)
    (info : VkSwapchainCreateInfoKHR) (env : CreateEnv) : Option CreateOutcome :=
  if info.sType ≠ VK_STRUCTURE_TYPE_SWAPCHAIN_CREATE_INFO_KHR then none
  else
    match env.chain_alloc with
    | none =>
      some { result := VK_ERROR_OUT_OF_HOST_MEMORY, swapchain_out := none, effects := [] }
    | some raw =>
      let alpha := info.compositeAlpha == VK_COMPOSITE_ALPHA_PRE_MULTIPLIED_BIT_KHR
      match wl_drm_format_for_vk_format info.imageFormat alpha with
      | none => none
      | some drm_format =>
        let chain : wsi_wl_swapchain :=
          { present_mode := info.presentMode
            display := env.display
            queue := none
            surface := surface.surface
            extent := info.imageExtent
            vk_format := info.imageFormat
            drm_format := drm_format
            fifo_ready := true
            images := (List.range info.minImageCount).map
              (fun i => { raw i with buffer := none }) }
        match env.display with
        | none => some (create_fail chain VK_ERROR_INITIALIZATION_FAILED [])
        | some _ =>
          match env.create_queue with
          | none => some (create_fail chain VK_ERROR_INITIALIZATION_FAILED [])
          | some queue =>
            match init_images env 0 chain.images with
            | (some result, images, effects) =>
              some (create_fail { chain with queue := some queue, images := images }
                result effects)
            | (none, images, effects) =>
              some
                { result := VK_SUCCESS
                  swapchain_out := some { chain with queue := some queue, images := images }
                  effects := effects }

/-- A connection record with the two alpha formats in its catalog. -/
def sample_display : wsi_wl_display :=
  { display := 3
    drm := some 4
    formats := [VK_FORMAT_B8G8R8A8_SRGB, VK_FORMAT_B8G8R8A8_UNORM]
    capabilities := WL_DRM_CAPABILITY_PRIME }

/-- A well-formed request for `n` images in present mode `mode`. -/
def sample_info (n : Nat) (mode : VkPresentModeKHR) : VkSwapchainCreateInfoKHR :=
  { sType := VK_STRUCTURE_TYPE_SWAPCHAIN_CREATE_INFO_KHR
    minImageCount := n
    imageFormat := VK_FORMAT_B8G8R8A8_UNORM
    imageExtent := (64, 64)
    compositeAlpha := VK_COMPOSITE_ALPHA_OPAQUE_BIT_KHR
    presentMode := mode }

/-- Collaborators that all succeed: slot `i` gets image `10 + i`, memory `20 + i` and
buffer `30 + i`. -/
def sample_env : CreateEnv :=
  { chain_alloc := some (fun _ => ⟨0, 0, some 99, true⟩)
    display := some sample_display
    create_queue := some 7
    create_wsi_image := fun i => (VK_SUCCESS, 10 + i, 20 + i)
    create_prime_buffer := fun i => some (30 + i) }

/-- Collaborators whose allocator succeeds and whose buffer export yields a null
handle for every slot. -/
def sample_env_null_export : CreateEnv :=
  { sample_env with create_prime_buffer := fun _ => none }

/-- Collaborators whose allocator fails with `VK_ERROR_OUT_OF_HOST_MEMORY` for slot 1
and succeeds for the other slots. -/
def sample_env_alloc_fails : CreateEnv :=
  { sample_env with
    create_wsi_image := fun i =>
      if i = 1 then (VK_ERROR_OUT_OF_HOST_MEMORY, 0, 0) else (VK_SUCCESS, 10 + i, 20 + i) }

/-! ## Lifetime of a swapchain -/

/-- The states a swapchain passes through: the state construction hands back, and the
states left by acquire calls, present calls and release events, in any order and with
any behaviour of the transport. -/
inductive Reachable : wsi_wl_swapchain → Prop where
  | created (surface : VkIcdSurfaceWayland) (info : VkSwapchainCreateInfoKHR)
      (env : CreateEnv) (out : CreateOutcome) (chain : wsi_wl_swapchain) :
      wsi_wl_surface_create_swapchain surface info env = some out →
      out.swapchain_out = some chain → Reachable chain
  | acquire (chain : wsi_wl_swapchain) (timeout : Nat) (pending : Dispatch)
      (roundtrips : List Dispatch) :
      Reachable chain →
      Reachable (wsi_wl_swapchain_acquire_next_image chain timeout pending roundtrips).chain
  | present (chain : wsi_wl_swapchain) (image_index : Nat) (dispatches : List Dispatch) :
      Reachable chain →
      Reachable (wsi_wl_swapchain_queue_present chain image_index dispatches).chain
  | release (chain : wsi_wl_swapchain) (slot : Nat) :
      Reachable chain → Reachable (buffer_handle_release chain slot)

/-- The swapchain construction hands back for one image with `sample_env`. -/
def sample_chain_fresh : wsi_wl_swapchain :=
  { present_mode := VK_PRESENT_MODE_FIFO_KHR
    display := some sample_display
    queue := some 7
    surface := 1
    extent := (64, 64)
    vk_format := VK_FORMAT_B8G8R8A8_UNORM
    drm_format := WL_DRM_FORMAT_XRGB8888
    fifo_ready := true
    images := [⟨10, 20, some 30, false⟩] }

/-- The state of `sample_chain_fresh` after its one image was acquired. -/
def sample_chain_acquired : wsi_wl_swapchain :=
  { sample_chain_fresh with images := [⟨10, 20, some 30, true⟩] }

/-! ## Traces of calls -/

/-- Tells whether the event is the release of a buffer. -/
def is_release : wl_event → Bool
  | wl_event.buffer_release _ => true
  | wl_event.frame_done => false

/-- Tells whether a release listener ran during the dispatch. -/
def delivers_release (d : Dispatch) : Bool :=
  d.events.any is_release

/-- One call made by the application on a swapchain, with the behaviour of the
transport during the call. -/
inductive Call where
  | acquire (timeout : Nat) (pending : Dispatch) (roundtrips : List Dispatch)
  | present (image_index : Nat) (dispatches : List Dispatch)
  deriving DecidableEq, Repr

/-- What is observed of one call of a trace. -/
structure CallRecord where
  is_present : Bool
  status : Status
  image_index : Option Nat
  handled : List wl_event
  passed_wait : Bool
  deriving DecidableEq, Repr

/-- Run one call. -/
def run_call (chain : wsi_wl_swapchain) : Call → CallRecord × wsi_wl_swapchain
  | Call.acquire timeout pending roundtrips =>
    let out := wsi_wl_swapchain_acquire_next_image chain timeout pending roundtrips
    ({ is_present := false, status := out.status, image_index := out.image_index,
       handled := out.handled, passed_wait := false }, out.chain)
  | Call.present image_index dispatches =>
    let out := wsi_wl_swapchain_queue_present chain image_index dispatches
    ({ is_present := true, status := out.status, image_index := none,
       handled := out.handled, passed_wait := out.passed_wait }, out.chain)

/-- Run the calls one after the other on the single thread that drives the swapchain.
A call that does not return (still blocked, or a failed assertion) ends the trace. -/
def run : wsi_wl_swapchain → List Call → List CallRecord × wsi_wl_swapchain
  | chain, [] => ([], chain)
  | chain, call :: rest =>
    match (run_call chain call).1.status with
    | Status.returned _ =>
      ((run_call chain call).1 :: (run (run_call chain call).2 rest).1,
        (run (run_call chain call).2 rest).2)
    | _ => ([(run_call chain call).1], (run_call chain call).2)

/-- An acquire call whose drain of the queued events succeeds and runs no release
listener. -/
def quiet_acquire : Call → Bool
  | Call.acquire _ pending _ => decide (0 ≤ pending.ret) && !delivers_release pending
  | Call.present _ _ => false

/-- The swapchain construction hands back for four images with `sample_env`. -/
def sample_chain_four : wsi_wl_swapchain :=
  { sample_chain_fresh with
    images := [⟨10, 20, some 30, false⟩, ⟨11, 21, some 31, false⟩,
      ⟨12, 22, some 32, false⟩, ⟨13, 23, some 33, false⟩] }

/-- A frame-locked trace on four images: acquire, present image 0, acquire, present
image 1; the frame callback of the first present fires during the wait of the
second. -/
def sample_trace : List Call :=
  [Call.acquire 0 ⟨[], 0⟩ [], Call.present 0 [],
    Call.acquire 0 ⟨[], 0⟩ [],
    Call.present 1 [⟨[wl_event.frame_done, wl_event.buffer_release 0], 2⟩]]

/-! ## Format catalog -/

/-- The record `VkFormatProperties` filled in by the driver. -/
structure VkFormatProperties where
  linearTilingFeatures : Nat
  optimalTilingFeatures : Nat
  bufferFeatures : Nat
  deriving DecidableEq, Repr

/-- The driver callbacks `struct wsi_callbacks`. -/
structure wsi_callbacks where
  get_phys_device_format_properties : Nat → VkFormat → VkFormatProperties

/-- The part of `struct wsi_wayland` the catalog reads, and the table of connections,
kept as an association list from connection handle to connection record. -/
structure wsi_wayland where
  physical_device : Nat
  cbs : wsi_callbacks
  displays : List (Nat × wsi_wl_display)

/-- Modelled from the spec: `u_vector_add` of `util/u_vector.h`, which is not among the
sources. It appends one element to the vector and returns the new vector with the
position of the new element, whose content is not yet written; `none` stands for the
null pointer. The spec describes the step as "otherwise append", so the model always
finds room. -/
def u_vector_add (v : List VkFormat) : Option (List VkFormat × Nat) :=
  some (v ++ [0], v.length)

/-- The loop `u_vector_foreach(f, &display->formats) if (*f == format) return;`:
tells whether the format is already in the list. -/
def format_listed : List VkFormat → VkFormat → Bool
  | [], _ => false
  | f :: rest, format => if f = format then true else format_listed rest format

/-- The function `wsi_wl_display_add_vk_format`. -/
def wsi_wl_display_add_vk_format (wsi : wsi_wayland) (display : wsi_wl_display)
    (format : VkFormat) : wsi_wl_display :=
  if format_listed display.formats format then display
  else
    let props := wsi.cbs.get_phys_device_format_properties wsi.physical_device format
    if props.optimalTilingFeatures &&& VK_FORMAT_FEATURE_COLOR_ATTACHMENT_BIT = 0 then display
    else
      match u_vector_add display.formats with
      | some (formats, f) => { display with formats := formats.set f format }
      | none => display

/-- The driver's renderability predicate as the catalog reads it: the format supports
color-attachment rendering with optimal tiling. -/
def color_renderable (wsi : wsi_wayland) (format : VkFormat) : Bool :=
  (wsi.cbs.get_phys_device_format_properties wsi.physical_device format).optimalTilingFeatures
    &&& VK_FORMAT_FEATURE_COLOR_ATTACHMENT_BIT != 0

/-- Listener `drm_handle_format` for one advertisement of the wire format `wl_format`.
The case `WL_DRM_FORMAT_XRGB8888` falls through into the case
`WL_DRM_FORMAT_ARGB8888`. -/
def drm_handle_format (wsi : wsi_wayland) (display : wsi_wl_display) (wl_format : Nat) :
    wsi_wl_display :=
  if wl_format = WL_DRM_FORMAT_XRGB8888 then
    let d1 := wsi_wl_display_add_vk_format wsi display VK_FORMAT_B8G8R8_SRGB
    let d2 := wsi_wl_display_add_vk_format wsi d1 VK_FORMAT_B8G8R8_UNORM
    let d3 := wsi_wl_display_add_vk_format wsi d2 VK_FORMAT_B8G8R8A8_SRGB
    wsi_wl_display_add_vk_format wsi d3 VK_FORMAT_B8G8R8A8_UNORM
  else if wl_format = WL_DRM_FORMAT_ARGB8888 then
    let d1 := wsi_wl_display_add_vk_format wsi display VK_FORMAT_B8G8R8A8_SRGB
    wsi_wl_display_add_vk_format wsi d1 VK_FORMAT_B8G8R8A8_UNORM
  else
    display

/-- Handle a sequence of advertisements, in order. -/
def drm_handle_formats (wsi : wsi_wayland) (display : wsi_wl_display)
    (wl_formats : List Nat) : wsi_wl_display :=
  wl_formats.foldl (drm_handle_format wsi) display

/-- A connection record as `wsi_wl_display_create` sets it up before the handshake:
zeroed, with an empty catalog. -/
def empty_display (wl_display : Nat) : wsi_wl_display :=
  { display := wl_display, drm := none, formats := [], capabilities := 0 }

/-- A driver for which every format is color-renderable. -/
def sample_wsi_all : wsi_wayland :=
  { physical_device := 1
    cbs := { get_phys_device_format_properties := fun _ _ => ⟨0, 0x80, 0⟩ }
    displays := [] }

/-- A driver for which only the two alpha formats are color-renderable. -/
def sample_wsi_alpha : wsi_wayland :=
  { physical_device := 1
    cbs :=
      { get_phys_device_format_properties := fun _ format =>
          if format = VK_FORMAT_B8G8R8A8_SRGB ∨ format = VK_FORMAT_B8G8R8A8_UNORM then
            ⟨0, 0x81, 0⟩
          else ⟨0, 0x01, 0⟩ }
    displays := [] }

/-! ## Surface queries -/

/-- The record `VkSurfaceFormatKHR`. -/
structure VkSurfaceFormatKHR where
  format : VkFormat
  colorSpace : VkColorSpaceKHR
  deriving DecidableEq, Repr

/-- What `wsi_wl_surface_get_formats` leaves behind: how it ended, the value behind
`pSurfaceFormatCount`, the caller's array (`none` for a null pointer), and the
connection record. -/
structure GetFormatsOutcome where
  status : Status
  pSurfaceFormatCount : Nat
  pSurfaceFormats : Option (List VkSurfaceFormatKHR)
  display : Option wsi_wl_display
  deriving DecidableEq, Repr

/-- The loop `u_vector_foreach(f, &display->formats) *(pSurfaceFormats++) = ...`,
writing from position `i` on. -/
def write_formats : List VkFormat → Nat → List VkSurfaceFormatKHR → List VkSurfaceFormatKHR
  | [], _, out => out
  | f :: rest, i, out =>
    write_formats rest (i + 1)
      (out.set i { format := f, colorSpace := VK_COLORSPACE_SRGB_NONLINEAR_KHR })

/-- The function `wsi_wl_surface_get_formats`. `display` is what `wsi_wl_get_display`
returned for the surface's connection. -/
def wsi_wl_surface_get_formats (display : Option wsi_wl_display)
    (pSurfaceFormatCount : Nat) (pSurfaceFormats : Option (List VkSurfaceFormatKHR)) :
    GetFormatsOutcome :=
  match display with
  | none =>
    { status := Status.returned VK_ERROR_OUT_OF_HOST_MEMORY
      pSurfaceFormatCount := pSurfaceFormatCount
      pSurfaceFormats := pSurfaceFormats
      display := none }
  | some d =>
    let count := d.formats.length
    match pSurfaceFormats with
    | none =>
      { status := Status.returned VK_SUCCESS
        pSurfaceFormatCount := count
        pSurfaceFormats := none
        display := some d }
    | some out =>
      if pSurfaceFormatCount ≥ count then
        { status := Status.returned VK_SUCCESS
          pSurfaceFormatCount := count
          pSurfaceFormats := some (write_formats d.formats 0 out)
          display := some d }
      else
        { status := Status.assert_failed
          pSurfaceFormatCount := pSurfaceFormatCount
          pSurfaceFormats := some out
          display := some d }

/-- The table `present_modes`. -/
def present_modes : List VkPresentModeKHR :=
  [VK_PRESENT_MODE_MAILBOX_KHR, VK_PRESENT_MODE_FIFO_KHR]

/-- The macro `typed_memcpy(dest, src, count)`: copy `count` elements, element `i`
being `src i`. -/
def typed_memcpy (dest : List VkPresentModeKHR) (src : Nat → VkPresentModeKHR) :
    Nat → List VkPresentModeKHR
  | 0 => dest
  | count + 1 => (typed_memcpy dest src count).set count (src count)

/-- What `wsi_wl_surface_get_present_modes` leaves behind. -/
structure GetPresentModesOutcome where
  status : Status
  pPresentModeCount : Nat
  pPresentModes : Option (List VkPresentModeKHR)
  deriving DecidableEq, Repr

/-- The function `wsi_wl_surface_get_present_modes`. The copy takes as many elements as
the caller's count says; `after_table i` is what the memory holds `i` elements past the
end of the table `present_modes`. -/
def wsi_wl_surface_get_present_modes (after_table : Nat → VkPresentModeKHR)
    (pPresentModeCount : Nat) (pPresentModes : Option (List VkPresentModeKHR)) :
    GetPresentModesOutcome :=
  match pPresentModes with
  | none =>
    { status := Status.returned VK_SUCCESS
      pPresentModeCount := present_modes.length
      pPresentModes := none }
  | some out =>
    if pPresentModeCount ≥ present_modes.length then
      { status := Status.returned VK_SUCCESS
        pPresentModeCount := present_modes.length
        pPresentModes :=
          some (typed_memcpy out
            (fun i => present_modes.getD i (after_table (i - present_modes.length)))
            pPresentModeCount) }
    else
      { status := Status.assert_failed
        pPresentModeCount := pPresentModeCount
        pPresentModes := some out }

/-- The state construction is in when the allocator fails for the second of two slots,
at the label `fail`: slot 0 is initialised, slot 1 has a null buffer handle and no
image. -/
def sample_chain_half_built : wsi_wl_swapchain :=
  { sample_chain_fresh with
    images := [⟨10, 20, some 30, false⟩, ⟨0, 0, none, true⟩] }

/-! ## Surface capabilities -/

def VK_SURFACE_TRANSFORM_IDENTITY_BIT_KHR : Nat := 1
def VK_IMAGE_USAGE_TRANSFER_SRC_BIT : Nat := 1
def VK_IMAGE_USAGE_TRANSFER_DST_BIT : Nat := 2
def VK_IMAGE_USAGE_SAMPLED_BIT : Nat := 4
def VK_IMAGE_USAGE_COLOR_ATTACHMENT_BIT : Nat := 16
def INT16_MAX : Nat := 32767

/-- The record `VkSurfaceCapabilitiesKHR`; extents are pairs of `uint32_t`. -/
structure VkSurfaceCapabilitiesKHR where
  minImageCount : Nat
  maxImageCount : Nat
  currentExtent : Nat × Nat
  minImageExtent : Nat × Nat
  maxImageExtent : Nat × Nat
  maxImageArrayLayers : Nat
  supportedTransforms : Nat
  currentTransform : Nat
  supportedCompositeAlpha : Nat
  supportedUsageFlags : Nat
  deriving DecidableEq, Repr

/-- The function `wsi_wl_surface_get_capabilities`: the status and the record it
fills in. The current extent `{ -1, -1 }` is stored in `uint32_t` fields. -/
def wsi_wl_surface_get_capabilities : VkResult × VkSurfaceCapabilitiesKHR :=
  (VK_SUCCESS,
    { minImageCount := 4
      maxImageCount := 0
      currentExtent := (2 ^ 32 - 1, 2 ^ 32 - 1)
      minImageExtent := (1, 1)
      maxImageExtent := (INT16_MAX, INT16_MAX)
      maxImageArrayLayers := 1
      supportedTransforms := VK_SURFACE_TRANSFORM_IDENTITY_BIT_KHR
      currentTransform := VK_SURFACE_TRANSFORM_IDENTITY_BIT_KHR
      supportedCompositeAlpha :=
        VK_COMPOSITE_ALPHA_OPAQUE_BIT_KHR ||| VK_COMPOSITE_ALPHA_PRE_MULTIPLIED_BIT_KHR
      supportedUsageFlags :=
        VK_IMAGE_USAGE_TRANSFER_SRC_BIT ||| VK_IMAGE_USAGE_SAMPLED_BIT |||
          VK_IMAGE_USAGE_TRANSFER_DST_BIT ||| VK_IMAGE_USAGE_COLOR_ATTACHMENT_BIT })

/-! ## Connection handshake -/

/-- Events dispatched during the round trips of the handshake: `wl_registry.global`,
with what `wl_registry_bind` returns should the listener bind the object, and the four
events of `wl_drm`. -/
inductive handshake_event where
  | registry_global (name : Nat) (interface : String) (version : Nat) (bound : Option Nat)
  | drm_device (name : String)
  | drm_format (wl_format : Nat)
  | drm_authenticated
  | drm_capabilities (capabilities : Nat)
  deriving DecidableEq, Repr

/-- Listener `registry_handle_global`; `none` is a failed `assert`. The listener of the
bound object is added when the bind returned an object. -/
def registry_handle_global (display : wsi_wl_display) (_name : Nat) (interface : String)
    (version : Nat) (bound : Option Nat) : Option wsi_wl_display :=
  if interface = "wl_drm" then
    if display.drm ≠ none then none
    else if ¬ version ≥ 2 then none
    else some { display with drm := bound }
  else
    some display

/-- Listener `drm_handle_capabilities`. -/
def drm_handle_capabilities (display : wsi_wl_display) (capabilities : Nat) :
    wsi_wl_display :=
  { display with capabilities := capabilities }

/-- Run the listener of one event of the handshake; `none` is a failed `assert`. The
events of `wl_drm` reach a listener only once the object is bound; `drm_handle_device`
only prints and `drm_handle_authenticated` is empty. -/
def handle_handshake_event (wsi : wsi_wayland) (display : wsi_wl_display) :
    handshake_event → Option wsi_wl_display
  | handshake_event.registry_global name interface version bound =>
    registry_handle_global display name interface version bound
  | handshake_event.drm_device _ => some display
  | handshake_event.drm_format wl_format =>
    if display.drm.isSome then some (drm_handle_format wsi display wl_format)
    else some display
  | handshake_event.drm_authenticated => some display
  | handshake_event.drm_capabilities capabilities =>
    if display.drm.isSome then some (drm_handle_capabilities display capabilities)
    else some display

/-- One `wl_display_roundtrip` of the handshake: run the listeners of its events in
order; `none` is a failed `assert`. The value the round trip returns is not read. -/
def handshake_roundtrip (wsi : wsi_wayland) :
    wsi_wl_display → List handshake_event → Option wsi_wl_display
  | display, [] => some display
  | display, e :: rest =>
    match handle_handshake_event wsi display e with
    | none => none
    | some display1 => handshake_roundtrip wsi display1 rest

/-- Calls that release resources of a connection record. -/
inductive DisplayEffect where
  | u_vector_finish
  | wl_drm_destroy (drm : Nat)
  | vk_free_display
  | wl_registry_destroy (registry : Nat)
  deriving DecidableEq, Repr

/-- What the collaborators answer during one handshake: whether `vk_alloc` and
`u_vector_init` succeed, what `wl_display_get_registry` returns, and the events of the
two round trips. `stale_registry` is what the variable `registry` holds when `fail` is
reached from the failure of `u_vector_init`, before the variable is initialised. -/
structure HandshakeEnv where
  display_alloc : Bool
  vector_init : Bool
  stale_registry : Option Nat
  get_registry : Option Nat
  round1 : List handshake_event
  round2 : List handshake_event
  deriving DecidableEq, Repr

/-- The function `wsi_wl_display_destroy`. -/
def wsi_wl_display_destroy (display : wsi_wl_display) : List DisplayEffect :=
  [DisplayEffect.u_vector_finish] ++
    (match display.drm with
      | some drm => [DisplayEffect.wl_drm_destroy drm]
      | none => []) ++
    [DisplayEffect.vk_free_display]

/-- The label `fail` of `wsi_wl_display_create`: destroy the registry proxy if the
variable holds one, destroy the record, return NULL. -/
def display_create_fail (registry : Option Nat) (display : wsi_wl_display) :
    Option wsi_wl_display × List DisplayEffect :=
  (none,
    (match registry with
      | some r => [DisplayEffect.wl_registry_destroy r]
      | none => []) ++ wsi_wl_display_destroy display)

/-- The function `wsi_wl_display_create`: the record it returns (`none` for NULL) and
the release calls it made; the outer `none` is a failed `assert` in a listener. -/
def wsi_wl_display_create (wsi : wsi_wayland) (wl_display : Nat) (env : HandshakeEnv) :
    Option (Option wsi_wl_display × List DisplayEffect) :=
  if ¬ env.display_alloc then some (none, [])
  else
    let display := empty_display wl_display
    if ¬ env.vector_init then some (display_create_fail env.stale_registry display)
    else
      match env.get_registry with
      | none => some (none, [])
      | some registry =>
        match handshake_roundtrip wsi display env.round1 with
        | none => none
        | some display1 =>
          if display1.drm = none then some (display_create_fail (some registry) display1)
          else
            match handshake_roundtrip wsi display1 env.round2 with
            | none => none
            | some display2 =>
              if display2.capabilities &&& WL_DRM_CAPABILITY_PRIME = 0 then
                some (display_create_fail (some registry) display2)
              else
                some (some display2, [DisplayEffect.wl_registry_destroy registry])

/-! ## Connection registry -/

/-- Modelled from the spec: `_mesa_hash_table_search` of `util/hash_table.h`, which is
not among the sources. The table of the registry is kept as an association list from
connection handle to connection record; the search returns the entry of the handle,
`none` standing for the null pointer. -/
def _mesa_hash_table_search (table : List (Nat × wsi_wl_display)) (key : Nat) :
    Option (Nat × wsi_wl_display) :=
  table.find? (fun entry => entry.1 == key)

/-- Modelled from the spec: `_mesa_hash_table_insert` of `util/hash_table.h`, which is
not among the sources. It stores the record under the handle, in place of the record
of an existing entry or as a new entry, and returns the table with the entry; `none`
stands for the null pointer. The spec describes the step as "insert the candidate", so
the model always finds room. -/
def _mesa_hash_table_insert (table : List (Nat × wsi_wl_display)) (key : Nat)
    (data : wsi_wl_display) :
    List (Nat × wsi_wl_display) × Option (Nat × wsi_wl_display) :=
  match _mesa_hash_table_search table key with
  | some _ =>
    (table.map (fun entry => if entry.1 == key then (key, data) else entry),
      some (key, data))
  | none => (table ++ [(key, data)], some (key, data))

/-- What `wsi_wl_get_display` leaves behind: the record it returns (`none` for NULL),
the table of the registry, the release calls made, whether `wsi_wl_display_create` was
called, and whether `_mesa_hash_table_insert` was called. -/
structure GetDisplayOutcome where
  result : Option wsi_wl_display
  displays : List (Nat × wsi_wl_display)
  effects : List DisplayEffect
  constructed : Bool
  published : Bool
  deriving DecidableEq, Repr

/-- The second section of `wsi_wl_get_display` that runs with the mutex held: look the
handle up again, destroy the candidate if an entry exists, insert the candidate
otherwise, and return the record of the entry. `none` is the dereference of a null
entry. -/
def get_display_publish (displays : List (Nat × wsi_wl_display)) (wl_display : Nat)
    (candidate : wsi_wl_display) : Option GetDisplayOutcome :=
  match _mesa_hash_table_search displays wl_display with
  | some entry =>
    some { result := some entry.2, displays := displays,
           effects := wsi_wl_display_destroy candidate, constructed := true,
           published := false }
  | none =>
    match _mesa_hash_table_insert displays wl_display candidate with
    | (displays1, some entry) =>
      some { result := some entry.2, displays := displays1, effects := [],
             constructed := true, published := true }
    | (_, none) => none

/-- The function `wsi_wl_get_display`. The first lookup runs with the mutex held on the
table of `wsi`; the handshake runs without the mutex; `interim` is what other threads
did to the table by the time the mutex is taken again. `none` is a failed `assert` or
the dereference of a null entry. -/
def wsi_wl_get_display (wsi : wsi_wayland) (wl_display : Nat) (env : HandshakeEnv)
    (interim : List (Nat × wsi_wl_display) → List (Nat × wsi_wl_display)) :
    Option GetDisplayOutcome :=
  match _mesa_hash_table_search wsi.displays wl_display with
  | some entry =>
    some { result := some entry.2, displays := wsi.displays, effects := [],
           constructed := false, published := false }
  | none =>
    match wsi_wl_display_create wsi wl_display env with
    | none => none
    | some (none, effects) =>
      some { result := none, displays := wsi.displays, effects := effects,
             constructed := true, published := false }
    | some (some display, effects) =>
      match get_display_publish (interim wsi.displays) wl_display display with
      | none => none
      | some out => some { out with effects := effects ++ out.effects }

/-- The function `wsi_wl_get_presentation_support`. -/
def wsi_wl_get_presentation_support (wsi : wsi_wayland) (wl_display : Nat)
    (env : HandshakeEnv)
    (interim : List (Nat × wsi_wl_display) → List (Nat × wsi_wl_display)) : Option Bool :=
  (wsi_wl_get_display wsi wl_display env interim).map (fun out => out.result.isSome)

/-- A handshake in which everything succeeds: the compositor advertises `wl_drm`
version 2, then an ARGB8888 format and the prime capability. -/
def sample_handshake : HandshakeEnv :=
  { display_alloc := true
    vector_init := true
    stale_registry := none
    get_registry := some 8
    round1 :=
      [handshake_event.registry_global 1 "wl_compositor" 3 none,
        handshake_event.registry_global 2 "wl_drm" 2 (some 4)]
    round2 :=
      [handshake_event.drm_device "/dev/dri/card0",
        handshake_event.drm_format WL_DRM_FORMAT_ARGB8888,
        handshake_event.drm_capabilities WL_DRM_CAPABILITY_PRIME] }

/-- A handshake in which the compositor never advertises `wl_drm`. -/
def sample_handshake_no_drm : HandshakeEnv :=
  { sample_handshake with
    round1 := [handshake_event.registry_global 1 "wl_compositor" 3 none]
    round2 := [] }

/-- A handshake in which `wl_drm` is bound and reports no prime capability. -/
def sample_handshake_no_prime : HandshakeEnv :=
  { sample_handshake with
    round2 :=
      [handshake_event.drm_format WL_DRM_FORMAT_ARGB8888,
        handshake_event.drm_capabilities 0] }

/-! ## Concurrent resolution -/

/-- One atomic step on the registry, made by some thread inside `wsi_wl_get_display`
with the mutex held: the first lookup of a handle, or the second lookup of a handle by
a thread whose handshake produced the candidate. -/
inductive RegistryStep where
  | lookup (wl_display : Nat)
  | publish (wl_display : Nat) (candidate : wsi_wl_display)
  deriving DecidableEq, Repr

/-- What is observed of one atomic step: the handle, the candidate the thread brought
(if any), the record found or returned (`none` when the first lookup found no entry),
whether the candidate was inserted, and the release calls made. -/
structure SectionRecord where
  wl_display : Nat
  candidate : Option wsi_wl_display
  result : Option wsi_wl_display
  published : Bool
  effects : List DisplayEffect
  deriving DecidableEq, Repr

/-- Run one atomic step on the table; `none` is the dereference of a null entry. -/
def registry_step (displays : List (Nat × wsi_wl_display)) :
    RegistryStep → Option (SectionRecord × List (Nat × wsi_wl_display))
  | RegistryStep.lookup wl_display =>
    some
      ({ wl_display := wl_display
         candidate := none
         result := (_mesa_hash_table_search displays wl_display).map (fun entry => entry.2)
         published := false
         effects := [] }, displays)
  | RegistryStep.publish wl_display candidate =>
    match get_display_publish displays wl_display candidate with
    | none => none
    | some out =>
      some
        ({ wl_display := wl_display
           candidate := some candidate
           result := out.result
           published := out.published
           effects := out.effects }, out.displays)

/-- Run the atomic steps of any number of threads in the order the mutex serialises
them. A step that crashes ends the run. -/
def run_sections : List (Nat × wsi_wl_display) → List RegistryStep →
    List SectionRecord × List (Nat × wsi_wl_display)
  | displays, [] => ([], displays)
  | displays, step :: rest =>
    match registry_step displays step with
    | none => ([], displays)
    | some (record, displays1) =>
      (record :: (run_sections displays1 rest).1, (run_sections displays1 rest).2)

/-- Number of steps of a run that inserted a record for the handle. -/
def publications (records : List SectionRecord) (wl_display : Nat) : Nat :=
  records.countP (fun r => r.wl_display == wl_display && r.published)

/-- A record another thread may have built for the connection 3. -/
def sample_display_other : wsi_wl_display :=
  { display := 3, drm := some 5, formats := [VK_FORMAT_B8G8R8A8_SRGB], capabilities := 1 }

/-- Three threads resolve the connection 3 at once: all three miss at the first lookup,
two handshakes succeed, and the thread with `sample_display_other` takes the mutex
first. -/
def sample_race : List RegistryStep :=
  [RegistryStep.lookup 3, RegistryStep.lookup 3, RegistryStep.lookup 3,
    RegistryStep.publish 3 sample_display_other, RegistryStep.publish 3 sample_display,
    RegistryStep.lookup 3]

/-! # Theorems -/

/-! ## Lemmas on slots and the scan -/

theorem set_busy_length (l : List wsi_wl_image) (i : Nat) (b : Bool) :
    (set_busy l i b).length = l.length := by
  induction l generalizing i with
  | nil => rfl
  | cons im rest ih =>
    cases i with
    | zero => rfl
    | succ k => simp [set_busy, ih]

theorem set_busy_getElem_ne (l : List wsi_wl_image) (i j : Nat) (b : Bool) (h : j ≠ i) :
    (set_busy l i b)[j]? = l[j]? := by
  induction l generalizing i j with
  | nil => rfl
  | cons im rest ih =>
    cases i with
    | zero =>
      cases j with
      | zero => exact absurd rfl h
      | succ m => simp [set_busy]
    | succ k =>
      cases j with
      | zero => simp [set_busy]
      | succ m =>
        have hm : m ≠ k := fun e => h (by rw [e])
        simp [set_busy, ih k m hm]

theorem set_busy_getElem_eq (l : List wsi_wl_image) (i : Nat) (b : Bool) :
    (set_busy l i b)[i]? = l[i]?.map (fun im => { im with busy := b }) := by
  induction l generalizing i with
  | nil => rfl
  | cons im rest ih =>
    cases i with
    | zero => simp [set_busy]
    | succ k => simp [set_busy, ih k]

/-- What a successful scan found: the slot exists, its flag is clear, and every slot
scanned before it has its flag set. -/
theorem acquire_scan_some (l : List wsi_wl_image) (i k : Nat)
    (h : acquire_scan l i = some k) :
    i ≤ k ∧ (l[k - i]?).map (fun im => im.busy) = some false ∧
      ∀ j, j < k - i → (l[j]?).map (fun im => im.busy) = some true := by
  induction l generalizing i with
  | nil => simp [acquire_scan] at h
  | cons im rest ih =>
    unfold acquire_scan at h
    by_cases hb : im.busy = true
    · simp [hb] at h
      obtain ⟨h1, h2, h3⟩ := ih (i + 1) h
      have e : k - i = (k - (i + 1)) + 1 := by omega
      refine ⟨by omega, ?_, ?_⟩
      · rw [e]; simpa using h2
      · intro j hj
        cases j with
        | zero => simp [hb]
        | succ m =>
          have := h3 m (by omega)
          simpa using this
    · simp [hb] at h
      subst h
      refine ⟨le_refl _, ?_, ?_⟩
      · simp at hb; simp [hb]
      · intro j hj; omega

/-- The scan fails only when every flag is set. -/
theorem acquire_scan_none (l : List wsi_wl_image) (i : Nat) :
    acquire_scan l i = none ↔ ∀ im ∈ l, im.busy = true := by
  induction l generalizing i with
  | nil => simp [acquire_scan]
  | cons im rest ih =>
    unfold acquire_scan
    by_cases hb : im.busy = true
    · simp [hb, ih]
    · simp [hb]

/-- When the scan finds a slot, the loop returns at once, whatever the transport would
do next. -/
theorem acquire_loop_found (chain : wsi_wl_swapchain) (handled : List wl_event)
    (roundtrips : List Dispatch) (i : Nat) (h : acquire_scan chain.images 0 = some i) :
    acquire_loop chain handled roundtrips = acquire_found chain handled i := by
  cases roundtrips with
  | nil => simp [acquire_loop, h]
  | cons d rest => simp [acquire_loop, h]

/-- C1: when the drain of the already-queued events succeeded and left at least one
image free, acquire returns success, the index it stores is the lowest slot whose image
is free after the drain, that slot's busy flag is set, and every other slot is left as
the drain left it. -/
theorem acquire_next_image_lowest_free (chain : wsi_wl_swapchain) (timeout : Nat)
    (pending : Dispatch) (roundtrips : List Dispatch)
    (hret : 0 ≤ pending.ret)
    (hfree : ∃ im ∈ (dispatch_events chain pending.events).images, im.busy = false) :
    ∃ i,
      (wsi_wl_swapchain_acquire_next_image chain timeout pending roundtrips).status
          = Status.returned VK_SUCCESS ∧
      (wsi_wl_swapchain_acquire_next_image chain timeout pending roundtrips).image_index
          = some i ∧
      i < (dispatch_events chain pending.events).image_count ∧
      ((dispatch_events chain pending.events).images[i]?).map (fun im => im.busy)
          = some false ∧
      (∀ j, j < i →
        ((dispatch_events chain pending.events).images[j]?).map (fun im => im.busy)
          = some true) ∧
      ((wsi_wl_swapchain_acquire_next_image chain timeout pending roundtrips).chain.images[i]?).map
          (fun im => im.busy) = some true ∧
      (∀ j, j ≠ i →
        (wsi_wl_swapchain_acquire_next_image chain timeout pending roundtrips).chain.images[j]?
          = (dispatch_events chain pending.events).images[j]?) ∧
      (wsi_wl_swapchain_acquire_next_image chain timeout pending roundtrips).chain.image_count
          = (dispatch_events chain pending.events).image_count := by
  obtain ⟨im, him, hbusy⟩ := hfree
  cases hscan : acquire_scan (dispatch_events chain pending.events).images 0 with
  | none =>
    have hall := (acquire_scan_none _ 0).mp hscan im him
    rw [hbusy] at hall
    exact absurd hall (by decide)
  | some i =>
    obtain ⟨_, hfreei, hbefore⟩ := acquire_scan_some _ 0 i hscan
    simp only [Nat.sub_zero] at hfreei hbefore
    have hout : wsi_wl_swapchain_acquire_next_image chain timeout pending roundtrips
        = acquire_found (dispatch_events chain pending.events) pending.events i := by
      unfold wsi_wl_swapchain_acquire_next_image
      rw [if_neg (not_lt.mpr hret)]
      exact acquire_loop_found _ _ _ i hscan
    have hlt : i < (dispatch_events chain pending.events).images.length := by
      by_contra hge
      have hnone : (dispatch_events chain pending.events).images[i]? = none :=
        List.getElem?_eq_none (not_lt.mp hge)
      rw [hnone] at hfreei
      simp at hfreei
    refine ⟨i, ?_, ?_, hlt, hfreei, hbefore, ?_, ?_, ?_⟩
    · rw [hout]; rfl
    · rw [hout]; rfl
    · rw [hout]
      simp only [acquire_found, set_busy_getElem_eq]
      rw [List.getElem?_eq_getElem hlt]
      rfl
    · intro j hj
      rw [hout]
      exact set_busy_getElem_ne _ i j true hj
    · rw [hout]
      exact set_busy_length _ i true

/-- C1, witness: a swapchain whose single image is busy, with the release of that image
already queued when acquire is called. -/
theorem acquire_next_image_lowest_free_witness :
    (0 : Int) ≤ (Dispatch.mk [wl_event.buffer_release 0] 1).ret ∧
    (∃ im ∈ (dispatch_events sample_chain_acquired [wl_event.buffer_release 0]).images,
      im.busy = false) ∧
    ∃ i,
      (wsi_wl_swapchain_acquire_next_image sample_chain_acquired 0
          ⟨[wl_event.buffer_release 0], 1⟩ []).status = Status.returned VK_SUCCESS ∧
      (wsi_wl_swapchain_acquire_next_image sample_chain_acquired 0
          ⟨[wl_event.buffer_release 0], 1⟩ []).image_index = some i :=
  ⟨by decide, ⟨⟨10, 20, some 30, false⟩, by decide, rfl⟩,
    (acquire_next_image_lowest_free sample_chain_acquired 0
      ⟨[wl_event.buffer_release 0], 1⟩ [] (by decide)
      ⟨⟨10, 20, some 30, false⟩, by decide, rfl⟩).imp (fun _ h => ⟨h.1, h.2.1⟩)⟩

/-! ## Listeners and the acquire loop -/

theorem dispatch_events_append (chain : wsi_wl_swapchain) (xs ys : List wl_event) :
    dispatch_events chain (xs ++ ys) = dispatch_events (dispatch_events chain xs) ys := by
  simp [dispatch_events, List.foldl_append]

theorem handle_event_length (chain : wsi_wl_swapchain) (e : wl_event) :
    (handle_event chain e).images.length = chain.images.length := by
  cases e with
  | buffer_release slot => exact set_busy_length _ _ _
  | frame_done => rfl

theorem dispatch_events_length (chain : wsi_wl_swapchain) (events : List wl_event) :
    (dispatch_events chain events).images.length = chain.images.length := by
  induction events generalizing chain with
  | nil => rfl
  | cons e rest ih =>
    show (dispatch_events (handle_event chain e) rest).images.length = _
    rw [ih, handle_event_length]

/-- A slot that is free after some listeners ran was free before, or one of the
listeners was the release of that slot. -/
theorem free_after_dispatch (chain : wsi_wl_swapchain) (events : List wl_event) (i : Nat)
    (h : ((dispatch_events chain events).images[i]?).map (fun im => im.busy) = some false) :
    (chain.images[i]?).map (fun im => im.busy) = some false ∨
      wl_event.buffer_release i ∈ events := by
  induction events generalizing chain with
  | nil => exact Or.inl h
  | cons e rest ih =>
    have h1 : ((dispatch_events (handle_event chain e) rest).images[i]?).map
        (fun im => im.busy) = some false := h
    rcases ih (handle_event chain e) h1 with hfree | hmem
    · cases e with
      | frame_done => exact Or.inl hfree
      | buffer_release slot =>
        by_cases hs : i = slot
        · subst hs
          exact Or.inr (List.mem_cons_self _ _)
        · left
          have : (handle_event chain (wl_event.buffer_release slot)).images[i]?
              = chain.images[i]? := set_busy_getElem_ne _ slot i false hs
          rw [this] at hfree
          exact hfree
    · exact Or.inr (List.mem_cons_of_mem _ hmem)

/-- Shape of every run of the acquire loop: the listeners that ran extend the ones that
had run before, and a successful return stores the index the scan found in the state
those listeners left, setting that slot's flag. -/
theorem acquire_loop_spec (chain : wsi_wl_swapchain) (handled : List wl_event)
    (roundtrips : List Dispatch) :
    ∃ events, (acquire_loop chain handled roundtrips).handled = handled ++ events ∧
      ((acquire_loop chain handled roundtrips).status = Status.returned VK_SUCCESS →
        ∃ i, (acquire_loop chain handled roundtrips).image_index = some i ∧
          acquire_scan (dispatch_events chain events).images 0 = some i ∧
          (acquire_loop chain handled roundtrips).chain =
            { dispatch_events chain events with
              images := set_busy (dispatch_events chain events).images i true }) ∧
      ((acquire_loop chain handled roundtrips).status ≠ Status.returned VK_SUCCESS →
        (acquire_loop chain handled roundtrips).chain = dispatch_events chain events) := by
  induction roundtrips generalizing chain handled with
  | nil =>
    refine ⟨[], ?_⟩
    cases hscan : acquire_scan chain.images 0 with
    | none => simp [acquire_loop, hscan, dispatch_events]
    | some i => simp [acquire_loop, hscan, acquire_found, dispatch_events]
  | cons d rest ih =>
    cases hscan : acquire_scan chain.images 0 with
    | some i =>
      refine ⟨[], ?_⟩
      simp [acquire_loop, hscan, acquire_found, dispatch_events]
    | none =>
      by_cases hret : d.ret < 0
      · refine ⟨d.events, ?_⟩
        simp [acquire_loop, hscan, hret, VK_SUCCESS, VK_ERROR_OUT_OF_DATE_KHR]
      · obtain ⟨events, h1, h2, h3⟩ := ih (dispatch_events chain d.events) (handled ++ d.events)
        refine ⟨d.events ++ events, ?_⟩
        simp only [acquire_loop, hscan, hret, if_false, dispatch_events_append]
        refine ⟨by rw [h1, List.append_assoc], h2, h3⟩

/-- Shape of every acquire call, in terms of the listeners that ran during it. -/
theorem acquire_spec (chain : wsi_wl_swapchain) (timeout : Nat) (pending : Dispatch)
    (roundtrips : List Dispatch) :
    ((wsi_wl_swapchain_acquire_next_image chain timeout pending roundtrips).status
        = Status.returned VK_SUCCESS →
      ∃ i, (wsi_wl_swapchain_acquire_next_image chain timeout pending roundtrips).image_index
            = some i ∧
        acquire_scan (dispatch_events chain
          (wsi_wl_swapchain_acquire_next_image chain timeout pending roundtrips).handled).images 0
            = some i ∧
        (wsi_wl_swapchain_acquire_next_image chain timeout pending roundtrips).chain =
          { dispatch_events chain
              (wsi_wl_swapchain_acquire_next_image chain timeout pending roundtrips).handled with
            images := set_busy (dispatch_events chain
              (wsi_wl_swapchain_acquire_next_image chain timeout pending roundtrips).handled).images
              i true }) ∧
    ((wsi_wl_swapchain_acquire_next_image chain timeout pending roundtrips).status
        ≠ Status.returned VK_SUCCESS →
      (wsi_wl_swapchain_acquire_next_image chain timeout pending roundtrips).chain =
        dispatch_events chain
          (wsi_wl_swapchain_acquire_next_image chain timeout pending roundtrips).handled) := by
  unfold wsi_wl_swapchain_acquire_next_image
  by_cases hret : pending.ret < 0
  · simp [hret, VK_SUCCESS, VK_ERROR_OUT_OF_DATE_KHR]
  · simp only [hret, if_false]
    obtain ⟨events, h1, h2, h3⟩ :=
      acquire_loop_spec (dispatch_events chain pending.events) pending.events roundtrips
    rw [h1, dispatch_events_append]
    exact ⟨h2, h3⟩

/-! ## Busy/free conservation -/

theorem sample_chain_fresh_reachable : Reachable sample_chain_fresh :=
  Reachable.created ⟨3, 1⟩ (sample_info 1 VK_PRESENT_MODE_FIFO_KHR) sample_env
    ⟨VK_SUCCESS, some sample_chain_fresh, []⟩ sample_chain_fresh (by decide) rfl

theorem sample_chain_acquired_reachable : Reachable sample_chain_acquired := by
  have h : (wsi_wl_swapchain_acquire_next_image sample_chain_fresh 0 ⟨[], 0⟩ []).chain
      = sample_chain_acquired := by decide
  rw [← h]
  exact Reachable.acquire _ _ _ _ sample_chain_fresh_reachable

/-- C2, as stated, fails: the single image of a constructed swapchain is acquired, so
its busy flag is set when the next acquire call is made; the release arrives during
that call's blocking round trip and the call returns the image with success. -/
theorem acquire_returns_image_busy_before_call :
    Reachable sample_chain_acquired ∧
    (sample_chain_acquired.images[0]?).map (fun im => im.busy) = some true ∧
    (wsi_wl_swapchain_acquire_next_image sample_chain_acquired 0 ⟨[], 0⟩
        [⟨[wl_event.buffer_release 0], 1⟩]).status = Status.returned VK_SUCCESS ∧
    (wsi_wl_swapchain_acquire_next_image sample_chain_acquired 0 ⟨[], 0⟩
        [⟨[wl_event.buffer_release 0], 1⟩]).image_index = some 0 :=
  ⟨sample_chain_acquired_reachable, by decide, by decide, by decide⟩

/-- C2, amended: in every state of a swapchain, reachable or not, the number of busy
images is at most `image_count`, and whenever acquire returns an index with success, the
image at that index was free when the call scanned the slots, that is, in the state left
by the listeners that ran during the call: it was free before the call, or its release
was handled during the call. -/
theorem busy_bounded_and_acquired_image_free_at_scan (chain : wsi_wl_swapchain) :
    busy_count chain.images ≤ chain.image_count ∧
    ∀ (timeout : Nat) (pending : Dispatch) (roundtrips : List Dispatch) (i : Nat),
      (wsi_wl_swapchain_acquire_next_image chain timeout pending roundtrips).status
          = Status.returned VK_SUCCESS →
      (wsi_wl_swapchain_acquire_next_image chain timeout pending roundtrips).image_index
          = some i →
      i < chain.image_count ∧
      ((dispatch_events chain
          (wsi_wl_swapchain_acquire_next_image chain timeout pending roundtrips).handled).images[i]?).map
          (fun im => im.busy) = some false ∧
      ((chain.images[i]?).map (fun im => im.busy) = some false ∨
        wl_event.buffer_release i ∈
          (wsi_wl_swapchain_acquire_next_image chain timeout pending roundtrips).handled) := by
  refine ⟨List.countP_le_length _, ?_⟩
  intro timeout pending roundtrips i hstatus hindex
  obtain ⟨k, hk, hscan, _⟩ := (acquire_spec chain timeout pending roundtrips).1 hstatus
  rw [hindex] at hk
  cases hk
  obtain ⟨_, hfree, _⟩ := acquire_scan_some _ 0 i hscan
  simp only [Nat.sub_zero] at hfree
  refine ⟨?_, hfree, free_after_dispatch _ _ _ hfree⟩
  by_contra hge
  have hlen := dispatch_events_length chain
    (wsi_wl_swapchain_acquire_next_image chain timeout pending roundtrips).handled
  have hnone : (dispatch_events chain
      (wsi_wl_swapchain_acquire_next_image chain timeout pending roundtrips).handled).images[i]?
        = none := by
    apply List.getElem?_eq_none
    rw [hlen]
    exact not_lt.mp hge
  rw [hnone] at hfree
  simp at hfree

/-- C2, witness: the acquired single-image swapchain and the call of the
counterexample. -/
theorem busy_bounded_and_acquired_image_free_at_scan_witness :
    Reachable sample_chain_acquired ∧
    busy_count sample_chain_acquired.images ≤ sample_chain_acquired.image_count ∧
    ((sample_chain_acquired.images[0]?).map (fun im => im.busy) = some false ∨
      wl_event.buffer_release 0 ∈
        (wsi_wl_swapchain_acquire_next_image sample_chain_acquired 0 ⟨[], 0⟩
          [⟨[wl_event.buffer_release 0], 1⟩]).handled) :=
  ⟨sample_chain_acquired_reachable,
    (busy_bounded_and_acquired_image_free_at_scan sample_chain_acquired).1,
    ((busy_bounded_and_acquired_image_free_at_scan sample_chain_acquired).2 0 ⟨[], 0⟩ [⟨[wl_event.buffer_release 0], 1⟩] 0
      (by decide) (by decide)).2.2⟩

/-! ## Acquiring every image of a fresh swapchain -/

theorem handle_event_not_release (chain : wsi_wl_swapchain) (e : wl_event)
    (h : is_release e = false) : (handle_event chain e).images = chain.images := by
  cases e with
  | buffer_release slot => simp [is_release] at h
  | frame_done => rfl

theorem dispatch_events_no_release (chain : wsi_wl_swapchain) (events : List wl_event)
    (h : events.any is_release = false) :
    (dispatch_events chain events).images = chain.images := by
  induction events generalizing chain with
  | nil => rfl
  | cons e rest ih =>
    simp only [List.any_cons, Bool.or_eq_false_iff] at h
    show (dispatch_events (handle_event chain e) rest).images = _
    rw [ih _ h.2, handle_event_not_release _ _ h.1]

theorem acquire_scan_append (pre suf : List wsi_wl_image) (i : Nat)
    (hpre : ∀ im ∈ pre, im.busy = true) :
    acquire_scan (pre ++ suf) i = acquire_scan suf (i + pre.length) := by
  induction pre generalizing i with
  | nil => simp
  | cons im rest ih =>
    have hb : im.busy = true := hpre im (List.mem_cons_self _ _)
    have hrest : ∀ x ∈ rest, x.busy = true := fun x hx => hpre x (List.mem_cons_of_mem _ hx)
    show acquire_scan (im :: (rest ++ suf)) i = _
    simp only [acquire_scan, hb, Bool.not_true, List.length_cons, Bool.false_eq_true,
      if_false]
    rw [ih (i + 1) hrest]
    congr 1
    omega

theorem set_busy_append (pre suf : List wsi_wl_image) (im : wsi_wl_image) (b : Bool) :
    set_busy (pre ++ im :: suf) pre.length b = pre ++ { im with busy := b } :: suf := by
  induction pre with
  | nil => rfl
  | cons x rest ih => simp [set_busy, ih]

theorem set_busy_idem (l : List wsi_wl_image) (k : Nat) (b : Bool) :
    set_busy (set_busy l k b) k b = set_busy l k b := by
  induction l generalizing k with
  | nil => rfl
  | cons im rest ih =>
    cases k with
    | zero => rfl
    | succ m => simp [set_busy, ih]

theorem acquire_scan_released (l : List wsi_wl_image) (k i : Nat)
    (hall : ∀ im ∈ l, im.busy = true) (hk : k < l.length) :
    acquire_scan (set_busy l k false) i = some (i + k) := by
  induction l generalizing k i with
  | nil => simp at hk
  | cons im rest ih =>
    cases k with
    | zero => simp [set_busy, acquire_scan]
    | succ m =>
      have hb : im.busy = true := hall im (List.mem_cons_self _ _)
      have hrest : ∀ x ∈ rest, x.busy = true := fun x hx => hall x (List.mem_cons_of_mem _ hx)
      simp only [set_busy, acquire_scan, hb, Bool.not_true, Bool.false_eq_true, if_false]
      rw [ih m (i + 1) hrest (by simpa using hk)]
      congr 1
      omega

/-- Listeners of a dispatch whose only releases are for slot `k`. -/
theorem dispatch_events_single_release (chain : wsi_wl_swapchain) (events : List wl_event)
    (k : Nat) (honly : ∀ j, wl_event.buffer_release j ∈ events → j = k) :
    (dispatch_events chain events).images =
      if wl_event.buffer_release k ∈ events then set_busy chain.images k false
      else chain.images := by
  induction events generalizing chain with
  | nil => simp [dispatch_events]
  | cons e rest ih =>
    have hrest : ∀ j, wl_event.buffer_release j ∈ rest → j = k :=
      fun j hj => honly j (List.mem_cons_of_mem _ hj)
    show (dispatch_events (handle_event chain e) rest).images = _
    rw [ih _ hrest]
    cases e with
    | frame_done => simp [handle_event, frame_handle_done]
    | buffer_release j =>
      have hj : j = k := honly j (List.mem_cons_self _ _)
      subst hj
      simp [handle_event, buffer_handle_release, set_busy_idem]

theorem init_images_done (env : CreateEnv) (i : Nat) (images : List wsi_wl_image) :
    (init_images env i images).1 = none →
      (init_images env i images).2.1.length = images.length ∧
      ∀ im ∈ (init_images env i images).2.1, im.busy = false := by
  induction images generalizing i with
  | nil => intro _; simp [init_images]
  | cons im rest ih =>
    intro h
    unfold init_images at h ⊢
    by_cases hres : (wsi_wl_image_init env i im).1 ≠ VK_SUCCESS
    · simp [hres] at h
    · simp only [hres, if_false] at h ⊢
      obtain ⟨h1, h2⟩ := ih (i + 1) h
      refine ⟨by simp [h1], ?_⟩
      intro x hx
      simp only [List.mem_cons] at hx
      rcases hx with rfl | hx
      · rfl
      · exact h2 x hx

/-- What construction guarantees about the swapchain it hands back. -/
theorem create_swapchain_spec (surface : VkIcdSurfaceWayland)
    (info : VkSwapchainCreateInfoKHR) (env : CreateEnv) (out : CreateOutcome)
    (chain : wsi_wl_swapchain)
    (hcreate : wsi_wl_surface_create_swapchain surface info env = some out)
    (hout : out.swapchain_out = some chain) :
    out.result = VK_SUCCESS ∧ chain.image_count = info.minImageCount ∧
      (∀ im ∈ chain.images, im.busy = false) ∧ chain.fifo_ready = true ∧
      chain.present_mode = info.presentMode := by
  unfold wsi_wl_surface_create_swapchain at hcreate
  by_cases hs : info.sType ≠ VK_STRUCTURE_TYPE_SWAPCHAIN_CREATE_INFO_KHR
  · simp [hs] at hcreate
  · simp only [hs, if_false] at hcreate
    cases halloc : env.chain_alloc with
    | none =>
      simp only [halloc] at hcreate
      cases hcreate
      simp at hout
    | some raw =>
      simp only [halloc] at hcreate
      cases hfmt : wl_drm_format_for_vk_format info.imageFormat
          (info.compositeAlpha == VK_COMPOSITE_ALPHA_PRE_MULTIPLIED_BIT_KHR) with
      | none => simp [hfmt] at hcreate
      | some drm_format =>
        simp only [hfmt] at hcreate
        cases hdisp : env.display with
        | none =>
          simp only [hdisp] at hcreate
          cases hcreate
          simp [create_fail] at hout
        | some d =>
          simp only [hdisp] at hcreate
          cases hq : env.create_queue with
          | none =>
            simp only [hq] at hcreate
            cases hcreate
            simp [create_fail] at hout
          | some q =>
            simp only [hq] at hcreate
            cases hinit : init_images env 0
                ((List.range info.minImageCount).map
                  (fun i => ({ raw i with buffer := none } : wsi_wl_image))) with
            | mk failed r =>
              obtain ⟨images, effects⟩ := r
              simp only [hinit] at hcreate
              cases failed with
              | some result =>
                simp only at hcreate
                cases hcreate
                simp [create_fail] at hout
              | none =>
                simp only at hcreate
                cases hcreate
                simp only [Option.some.injEq] at hout
                subst hout
                have hdone := init_images_done env 0 _ (by rw [hinit])
                rw [hinit] at hdone
                simp only [List.length_map, List.length_range] at hdone
                exact ⟨rfl, hdone.1, hdone.2, rfl, rfl⟩

/-- An acquire call whose drain is quiet and that meets the images `pre ++ im :: suf`,
those of `pre` busy and `im` free, returns the index of `im` and sets its flag. -/
theorem acquire_quiet_first_free (chain : wsi_wl_swapchain) (timeout : Nat)
    (pending : Dispatch) (roundtrips : List Dispatch) (pre suf : List wsi_wl_image)
    (im : wsi_wl_image) (himg : chain.images = pre ++ im :: suf)
    (hpre : ∀ x ∈ pre, x.busy = true) (him : im.busy = false)
    (hret : 0 ≤ pending.ret) (hquiet : delivers_release pending = false) :
    (wsi_wl_swapchain_acquire_next_image chain timeout pending roundtrips).status
        = Status.returned VK_SUCCESS ∧
    (wsi_wl_swapchain_acquire_next_image chain timeout pending roundtrips).image_index
        = some pre.length ∧
    (wsi_wl_swapchain_acquire_next_image chain timeout pending roundtrips).chain.images
        = (pre ++ [{ im with busy := true }]) ++ suf := by
  have himg1 : (dispatch_events chain pending.events).images = pre ++ im :: suf := by
    rw [dispatch_events_no_release _ _ hquiet, himg]
  have hscan : acquire_scan (dispatch_events chain pending.events).images 0
      = some pre.length := by
    rw [himg1, acquire_scan_append pre (im :: suf) 0 hpre]
    simp [acquire_scan, him]
  have hout : wsi_wl_swapchain_acquire_next_image chain timeout pending roundtrips
      = acquire_found (dispatch_events chain pending.events) pending.events pre.length := by
    unfold wsi_wl_swapchain_acquire_next_image
    rw [if_neg (not_lt.mpr hret)]
    exact acquire_loop_found _ _ _ _ hscan
  rw [hout]
  refine ⟨rfl, rfl, ?_⟩
  show set_busy (dispatch_events chain pending.events).images pre.length true = _
  rw [himg1, set_busy_append]
  simp

/-- Quiet acquire calls, as many as there are free images behind a busy front, return
the slots of the free images in order and leave every image busy. -/
theorem run_quiet_acquires (calls : List Call) (chain : wsi_wl_swapchain)
    (pre suf : List wsi_wl_image) (himg : chain.images = pre ++ suf)
    (hpre : ∀ x ∈ pre, x.busy = true) (hsuf : ∀ x ∈ suf, x.busy = false)
    (hlen : calls.length = suf.length) (hquiet : ∀ c ∈ calls, quiet_acquire c = true) :
    (run chain calls).1.map (fun r => (r.status, r.image_index)) =
        (List.range' pre.length suf.length).map
          (fun i => (Status.returned VK_SUCCESS, some i)) ∧
    (∀ x ∈ (run chain calls).2.images, x.busy = true) ∧
    (run chain calls).2.images.length = chain.images.length := by
  induction calls generalizing chain pre suf with
  | nil =>
    have hnil : suf = [] := List.length_eq_zero.mp (by simpa using hlen.symm)
    subst hnil
    refine ⟨by simp [run], ?_, rfl⟩
    intro x hx
    have : x ∈ pre := by simpa [run, himg] using hx
    exact hpre x this
  | cons call rest ih =>
    cases suf with
    | nil => simp at hlen
    | cons im suf1 =>
      have hc : quiet_acquire call = true := hquiet call (List.mem_cons_self _ _)
      cases call with
      | present image_index dispatches => simp [quiet_acquire] at hc
      | acquire timeout pending roundtrips =>
        simp only [quiet_acquire, Bool.and_eq_true, decide_eq_true_eq,
          Bool.not_eq_true'] at hc
        have him : im.busy = false := hsuf im (List.mem_cons_self _ _)
        obtain ⟨h1, h2, h3⟩ := acquire_quiet_first_free chain timeout pending roundtrips
          pre suf1 im himg hpre him hc.1 hc.2
        have hpre1 : ∀ x ∈ pre ++ [{ im with busy := true }], x.busy = true := by
          intro x hx
          simp only [List.mem_append, List.mem_singleton] at hx
          rcases hx with hx | rfl
          · exact hpre x hx
          · rfl
        have hsuf1 : ∀ x ∈ suf1, x.busy = false :=
          fun x hx => hsuf x (List.mem_cons_of_mem _ hx)
        obtain ⟨r1, r2, r3⟩ := ih
          (wsi_wl_swapchain_acquire_next_image chain timeout pending roundtrips).chain
          (pre ++ [{ im with busy := true }]) suf1 h3 hpre1 hsuf1
          (by simpa using hlen) (fun c hc => hquiet c (List.mem_cons_of_mem _ hc))
        simp only [run, run_call, h1]
        refine ⟨?_, r2, ?_⟩
        · simp only [List.map_cons, h1, h2, r1, List.length_cons, List.range'_succ,
            List.length_append, List.length_singleton, List.length_nil, Nat.zero_add]
        · rw [r3, h3, himg]
          simp

/-- With every image busy and no release delivered, the acquire loop does not return
success: it is still blocked when the transport's round trips are used up, unless one
of them failed. -/
theorem acquire_loop_all_busy_quiet (roundtrips : List Dispatch) (chain : wsi_wl_swapchain)
    (handled : List wl_event) (hall : ∀ im ∈ chain.images, im.busy = true)
    (hquiet : ∀ d ∈ roundtrips, delivers_release d = false) :
    ((acquire_loop chain handled roundtrips).status = Status.blocked ∨
      (acquire_loop chain handled roundtrips).status
        = Status.returned VK_ERROR_OUT_OF_DATE_KHR) ∧
    (acquire_loop chain handled roundtrips).image_index = none := by
  have hscan : acquire_scan chain.images 0 = none := (acquire_scan_none _ 0).mpr hall
  induction roundtrips generalizing chain handled with
  | nil => simp [acquire_loop, hscan]
  | cons d rest ih =>
    by_cases hret : d.ret < 0
    · simp [acquire_loop, hscan, hret]
    · have hd : delivers_release d = false := hquiet d (List.mem_cons_self _ _)
      have himg : (dispatch_events chain d.events).images = chain.images :=
        dispatch_events_no_release _ _ hd
      simp only [acquire_loop, hscan, hret, if_false]
      exact ih (dispatch_events chain d.events) (handled ++ d.events)
        (by rw [himg]; exact hall)
        (fun x hx => hquiet x (List.mem_cons_of_mem _ hx))
        (by rw [himg]; exact hscan)

/-- With every image busy, quiet successful round trips followed by a successful one
that delivers the release of slot `k` (and of no other slot) make the acquire loop
return `k`. -/
theorem acquire_loop_release (quiet : List Dispatch) (chain : wsi_wl_swapchain)
    (handled : List wl_event) (d : Dispatch) (rest : List Dispatch) (k : Nat)
    (hall : ∀ im ∈ chain.images, im.busy = true)
    (hquiet : ∀ q ∈ quiet, 0 ≤ q.ret ∧ delivers_release q = false)
    (hret : 0 ≤ d.ret) (hk : k < chain.images.length)
    (hmem : wl_event.buffer_release k ∈ d.events)
    (honly : ∀ j, wl_event.buffer_release j ∈ d.events → j = k) :
    (acquire_loop chain handled (quiet ++ d :: rest)).status = Status.returned VK_SUCCESS ∧
    (acquire_loop chain handled (quiet ++ d :: rest)).image_index = some k := by
  have hscan : acquire_scan chain.images 0 = none := (acquire_scan_none _ 0).mpr hall
  induction quiet generalizing chain handled with
  | nil =>
    have himg : (dispatch_events chain d.events).images = set_busy chain.images k false := by
      rw [dispatch_events_single_release _ _ k honly, if_pos hmem]
    have hfound : acquire_scan (dispatch_events chain d.events).images 0 = some k := by
      rw [himg, acquire_scan_released _ k 0 hall hk, Nat.zero_add]
    simp only [List.nil_append, acquire_loop, hscan, not_lt.mpr hret, if_false]
    rw [acquire_loop_found _ _ _ k hfound]
    exact ⟨rfl, rfl⟩
  | cons q more ih =>
    obtain ⟨hq1, hq2⟩ := hquiet q (List.mem_cons_self _ _)
    have himg : (dispatch_events chain q.events).images = chain.images :=
      dispatch_events_no_release _ _ hq2
    simp only [List.cons_append, acquire_loop, hscan, not_lt.mpr hq1, if_false]
    exact ih (dispatch_events chain q.events) (handled ++ q.events)
      (by rw [himg]; exact hall)
      (fun x hx => hquiet x (List.mem_cons_of_mem _ hx))
      (by rw [himg]; exact hk)
      (by rw [himg]; exact hscan)

/-- C3: on a freshly constructed swapchain, as many acquire calls as there are images,
with no release delivered, all succeed and return the slots 0, 1, ... in order, leaving
every image busy. A further acquire call does not return success while no release is
delivered (it stays blocked, or reports out-of-date when the transport fails), and it
returns `k` when a round trip of its wait delivers the release of image `k`. -/
theorem fresh_swapchain_acquires_in_slot_order (surface : VkIcdSurfaceWayland)
    (info : VkSwapchainCreateInfoKHR) (env : CreateEnv) (out : CreateOutcome)
    (chain : wsi_wl_swapchain)
    (hcreate : wsi_wl_surface_create_swapchain surface info env = some out)
    (hout : out.swapchain_out = some chain)
    (calls : List Call) (hlen : calls.length = info.minImageCount)
    (hquiet : ∀ c ∈ calls, quiet_acquire c = true) :
    chain.image_count = info.minImageCount ∧
    (run chain calls).1.map (fun r => (r.status, r.image_index)) =
      (List.range info.minImageCount).map (fun i => (Status.returned VK_SUCCESS, some i)) ∧
    (∀ im ∈ (run chain calls).2.images, im.busy = true) ∧
    (∀ (timeout : Nat) (pending : Dispatch) (roundtrips : List Dispatch),
      delivers_release pending = false →
      (∀ d ∈ roundtrips, delivers_release d = false) →
      ((wsi_wl_swapchain_acquire_next_image (run chain calls).2 timeout pending
          roundtrips).status = Status.blocked ∨
        (wsi_wl_swapchain_acquire_next_image (run chain calls).2 timeout pending
          roundtrips).status = Status.returned VK_ERROR_OUT_OF_DATE_KHR) ∧
      (wsi_wl_swapchain_acquire_next_image (run chain calls).2 timeout pending
          roundtrips).image_index = none) ∧
    (∀ (timeout : Nat) (pending : Dispatch) (quiet : List Dispatch) (d : Dispatch)
        (rest : List Dispatch) (k : Nat),
      0 ≤ pending.ret → delivers_release pending = false →
      (∀ q ∈ quiet, 0 ≤ q.ret ∧ delivers_release q = false) →
      0 ≤ d.ret → k < info.minImageCount →
      wl_event.buffer_release k ∈ d.events →
      (∀ j, wl_event.buffer_release j ∈ d.events → j = k) →
      (wsi_wl_swapchain_acquire_next_image (run chain calls).2 timeout pending
          (quiet ++ d :: rest)).status = Status.returned VK_SUCCESS ∧
      (wsi_wl_swapchain_acquire_next_image (run chain calls).2 timeout pending
          (quiet ++ d :: rest)).image_index = some k) := by
  obtain ⟨_, hcount, hfree, _, _⟩ := create_swapchain_spec surface info env out chain hcreate hout
  have hcount1 : chain.images.length = info.minImageCount := hcount
  obtain ⟨r1, r2, r3⟩ := run_quiet_acquires calls chain [] chain.images rfl
    (fun x hx => by simp at hx) hfree (by rw [hlen, hcount1]) hquiet
  refine ⟨hcount, ?_, r2, ?_, ?_⟩
  · rw [r1, hcount1, List.range_eq_range']
    rfl
  · intro timeout pending roundtrips hp hrs
    have himg : (dispatch_events (run chain calls).2 pending.events).images
        = (run chain calls).2.images := dispatch_events_no_release _ _ hp
    unfold wsi_wl_swapchain_acquire_next_image
    by_cases hret : pending.ret < 0
    · simp [hret]
    · simp only [hret, if_false]
      exact acquire_loop_all_busy_quiet roundtrips _ _ (by rw [himg]; exact r2) hrs
  · intro timeout pending quiet d rest k hret hp hq hd hk hmem honly
    have himg : (dispatch_events (run chain calls).2 pending.events).images
        = (run chain calls).2.images := dispatch_events_no_release _ _ hp
    unfold wsi_wl_swapchain_acquire_next_image
    rw [if_neg (not_lt.mpr hret)]
    exact acquire_loop_release quiet _ _ d rest k (by rw [himg]; exact r2) hq hd
      (by rw [himg, r3, hcount1]; exact hk) hmem honly

/-- C3, witness: the scenario with four images; the fifth call waits through one quiet
round trip and then receives the release of image 2. -/
theorem fresh_swapchain_acquires_in_slot_order_witness :
    wsi_wl_surface_create_swapchain ⟨3, 1⟩ (sample_info 4 VK_PRESENT_MODE_FIFO_KHR) sample_env
      = some ⟨VK_SUCCESS, some sample_chain_four, []⟩ ∧
    (run sample_chain_four (List.replicate 4 (Call.acquire 0 ⟨[], 0⟩ []))).1.map
        (fun r => (r.status, r.image_index)) =
      (List.range 4).map (fun i => (Status.returned VK_SUCCESS, some i)) ∧
    ((wsi_wl_swapchain_acquire_next_image
        (run sample_chain_four (List.replicate 4 (Call.acquire 0 ⟨[], 0⟩ []))).2 0 ⟨[], 0⟩
        [⟨[wl_event.frame_done], 1⟩]).status = Status.blocked ∨
      (wsi_wl_swapchain_acquire_next_image
        (run sample_chain_four (List.replicate 4 (Call.acquire 0 ⟨[], 0⟩ []))).2 0 ⟨[], 0⟩
        [⟨[wl_event.frame_done], 1⟩]).status = Status.returned VK_ERROR_OUT_OF_DATE_KHR) ∧
    (wsi_wl_swapchain_acquire_next_image
        (run sample_chain_four (List.replicate 4 (Call.acquire 0 ⟨[], 0⟩ []))).2 0 ⟨[], 0⟩
        ([⟨[wl_event.frame_done], 1⟩] ++ ⟨[wl_event.buffer_release 2], 1⟩ :: [])).image_index
      = some 2 :=
  let h := fresh_swapchain_acquires_in_slot_order ⟨3, 1⟩
    (sample_info 4 VK_PRESENT_MODE_FIFO_KHR) sample_env
    ⟨VK_SUCCESS, some sample_chain_four, []⟩ sample_chain_four (by decide) rfl
    (List.replicate 4 (Call.acquire 0 ⟨[], 0⟩ [])) (by decide) (by decide)
  ⟨by decide, h.2.1,
    (h.2.2.2.1 0 ⟨[], 0⟩ [⟨[wl_event.frame_done], 1⟩] (by decide) (by decide)).1,
    (h.2.2.2.2 0 ⟨[], 0⟩ [⟨[wl_event.frame_done], 1⟩] ⟨[wl_event.buffer_release 2], 1⟩ [] 2
      (by decide) (by decide) (by decide) (by decide) (by decide) (by decide)
      (fun j hj => by simpa using hj)).2⟩

/-! ## Construction with a failed buffer export -/

/-- C4, the failing input: one image is requested, the external allocator succeeds and
the buffer export yields a null handle. `wsi_wl_image_init` frees the image and returns
the allocator's status, which is success; construction then returns success and hands
back a swapchain whose only slot has a null buffer handle and a freed image. The sibling
failure, an allocator that fails for the second of two slots, is unwound as the claim
says: a failure status, no swapchain, the first image freed and the block released. -/
theorem create_swapchain_null_export_returns_success :
    wsi_wl_image_init sample_env_null_export 0 ⟨0, 0, none, true⟩
      = (VK_SUCCESS, ⟨10, 20, none, true⟩, [Effect.free_wsi_image 10 20]) ∧
    wsi_wl_surface_create_swapchain ⟨3, 1⟩ (sample_info 1 VK_PRESENT_MODE_FIFO_KHR)
        sample_env_null_export
      = some
          { result := VK_SUCCESS
            swapchain_out :=
              some { sample_chain_fresh with images := [⟨10, 20, none, false⟩] }
            effects := [Effect.free_wsi_image 10 20] } ∧
    wsi_wl_surface_create_swapchain ⟨3, 1⟩ (sample_info 2 VK_PRESENT_MODE_FIFO_KHR)
        sample_env_alloc_fails
      = some
          { result := VK_ERROR_OUT_OF_HOST_MEMORY
            swapchain_out := none
            effects := [Effect.free_wsi_image 10 20, Effect.vk_free_chain] } := by
  refine ⟨?_, ?_, ?_⟩ <;> decide

/-! ## Frame pacing -/

theorem handle_event_present_mode (chain : wsi_wl_swapchain) (e : wl_event) :
    (handle_event chain e).present_mode = chain.present_mode := by
  cases e <;> rfl

theorem dispatch_events_present_mode (chain : wsi_wl_swapchain) (events : List wl_event) :
    (dispatch_events chain events).present_mode = chain.present_mode := by
  induction events generalizing chain with
  | nil => rfl
  | cons e rest ih =>
    show (dispatch_events (handle_event chain e) rest).present_mode = _
    rw [ih, handle_event_present_mode]

/-- Among the listeners only `frame_handle_done` sets the flag. -/
theorem handle_event_fifo_ready (chain : wsi_wl_swapchain) (e : wl_event)
    (h : (handle_event chain e).fifo_ready = true) :
    chain.fifo_ready = true ∨ e = wl_event.frame_done := by
  cases e with
  | buffer_release slot => exact Or.inl h
  | frame_done => exact Or.inr rfl

theorem dispatch_events_fifo_ready (chain : wsi_wl_swapchain) (events : List wl_event)
    (h : (dispatch_events chain events).fifo_ready = true) :
    chain.fifo_ready = true ∨ wl_event.frame_done ∈ events := by
  induction events generalizing chain with
  | nil => exact Or.inl h
  | cons e rest ih =>
    have h1 : (dispatch_events (handle_event chain e) rest).fifo_ready = true := h
    rcases ih _ h1 with h2 | h2
    · rcases handle_event_fifo_ready chain e h2 with h3 | h3
      · exact Or.inl h3
      · subst h3
        exact Or.inr (List.mem_cons_self _ _)
    · exact Or.inr (List.mem_cons_of_mem _ h2)

/-- Shape of every run of the frame-locked wait: the swapchain is the one the listeners
that ran left, and the loop is left only with the flag set. -/
theorem fifo_wait_spec (dispatches : List Dispatch) (chain : wsi_wl_swapchain)
    (handled : List wl_event) :
    ∃ events, (fifo_wait chain handled dispatches).2.2 = handled ++ events ∧
      (fifo_wait chain handled dispatches).2.1 = dispatch_events chain events ∧
      ((fifo_wait chain handled dispatches).1 = none →
        (dispatch_events chain events).fifo_ready = true) := by
  induction dispatches generalizing chain handled with
  | nil =>
    refine ⟨[], ?_⟩
    by_cases hready : chain.fifo_ready = true
    · simp [fifo_wait, hready, dispatch_events]
    · simp [fifo_wait, hready, dispatch_events]
  | cons d rest ih =>
    by_cases hready : chain.fifo_ready = true
    · refine ⟨[], ?_⟩
      simp [fifo_wait, hready, dispatch_events]
    · by_cases hret : d.ret < 0
      · refine ⟨d.events, ?_⟩
        simp [fifo_wait, hready, hret]
      · obtain ⟨events, h1, h2, h3⟩ :=
          ih (dispatch_events chain d.events) (handled ++ d.events)
        refine ⟨d.events ++ events, ?_⟩
        have hfalse : chain.fifo_ready = false := by simpa using hready
        simp only [fifo_wait, hfalse, hret, if_false, dispatch_events_append,
          Bool.false_eq_true]
        exact ⟨by rw [h1, List.append_assoc], h2, h3⟩

theorem present_commit_spec (chain : wsi_wl_swapchain) (image_index : Nat)
    (handled : List wl_event) :
    (present_commit chain image_index handled).chain.present_mode = chain.present_mode ∧
    (present_commit chain image_index handled).handled = handled ∧
    (present_commit chain image_index handled).passed_wait = true ∧
    ((present_commit chain image_index handled).chain.fifo_ready = true →
      chain.fifo_ready = true) ∧
    (chain.present_mode = VK_PRESENT_MODE_FIFO_KHR →
      ∀ r, (present_commit chain image_index handled).status = Status.returned r →
        (present_commit chain image_index handled).chain.fifo_ready = false) := by
  unfold present_commit
  by_cases hidx : image_index < chain.image_count
  · rw [if_pos hidx]
    refine ⟨rfl, rfl, rfl, ?_, ?_⟩
    · intro h
      by_cases hf : (chain.present_mode == VK_PRESENT_MODE_FIFO_KHR) = true
      · simp [hf] at h
      · simpa [hf] using h
    · intro hf r _
      simp [hf]
  · rw [if_neg hidx]
    refine ⟨rfl, rfl, rfl, fun h => h, ?_⟩
    intro _ r h
    cases h

/-- The frame-locked wait never ends the call with success. -/
theorem fifo_wait_status_ne_success (dispatches : List Dispatch) (chain : wsi_wl_swapchain)
    (handled : List wl_event) :
    (fifo_wait chain handled dispatches).1 ≠ some (Status.returned VK_SUCCESS) := by
  induction dispatches generalizing chain handled with
  | nil =>
    by_cases hready : chain.fifo_ready = true
    · simp [fifo_wait, hready]
    · simp [fifo_wait, hready]
  | cons d rest ih =>
    by_cases hready : chain.fifo_ready = true
    · simp [fifo_wait, hready]
    · have hfalse : chain.fifo_ready = false := by simpa using hready
      by_cases hret : d.ret < 0
      · simp [fifo_wait, hfalse, hret, VK_SUCCESS, VK_ERROR_OUT_OF_DATE_KHR]
      · simp only [fifo_wait, hfalse, hret, if_false, Bool.false_eq_true]
        exact ih _ _

/-- Shape of every present call. The mode is kept. The flag is set afterwards only if
it was set before or `frame_handle_done` ran during the call. In frame-locked mode the
call gets past the wait only if the flag was set before or `frame_handle_done` ran
during the call, and a call that returns after the wait leaves the flag clear. -/
theorem queue_present_spec (chain : wsi_wl_swapchain) (image_index : Nat)
    (dispatches : List Dispatch) :
    (wsi_wl_swapchain_queue_present chain image_index dispatches).chain.present_mode
        = chain.present_mode ∧
    ((wsi_wl_swapchain_queue_present chain image_index dispatches).chain.fifo_ready = true →
      chain.fifo_ready = true ∨
        wl_event.frame_done ∈
          (wsi_wl_swapchain_queue_present chain image_index dispatches).handled) ∧
    (chain.present_mode = VK_PRESENT_MODE_FIFO_KHR →
      (wsi_wl_swapchain_queue_present chain image_index dispatches).passed_wait = true →
      (chain.fifo_ready = true ∨
        wl_event.frame_done ∈
          (wsi_wl_swapchain_queue_present chain image_index dispatches).handled) ∧
      ∀ r, (wsi_wl_swapchain_queue_present chain image_index dispatches).status
            = Status.returned r →
        (wsi_wl_swapchain_queue_present chain image_index dispatches).chain.fifo_ready
            = false) ∧
    ((wsi_wl_swapchain_queue_present chain image_index dispatches).status
        = Status.returned VK_SUCCESS →
      (wsi_wl_swapchain_queue_present chain image_index dispatches).passed_wait = true) := by
  unfold wsi_wl_swapchain_queue_present
  by_cases hf : (chain.present_mode == VK_PRESENT_MODE_FIFO_KHR) = true
  · simp only [hf, if_true]
    obtain ⟨events, h1, h2, h3⟩ := fifo_wait_spec dispatches chain []
    cases hw : fifo_wait chain [] dispatches with
    | mk st r =>
      obtain ⟨chain1, handled⟩ := r
      rw [hw] at h1 h2 h3
      simp only [List.nil_append] at h1 h2 h3
      subst h2
      subst h1
      cases st with
      | none =>
        simp only
        obtain ⟨c1, c2, c3, c4, c5⟩ :=
          present_commit_spec (dispatch_events chain handled) image_index handled
        have hmode : (dispatch_events chain handled).present_mode = VK_PRESENT_MODE_FIFO_KHR := by
          rw [dispatch_events_present_mode]
          simpa using hf
        have hready := dispatch_events_fifo_ready chain handled (h3 rfl)
        refine ⟨by rw [c1, dispatch_events_present_mode], ?_, ?_, fun _ => c3⟩
        · intro _
          rw [c2]
          exact hready
        · intro _ _
          rw [c2]
          exact ⟨hready, c5 hmode⟩
      | some status =>
        simp only
        refine ⟨dispatch_events_present_mode _ _, ?_, ?_, ?_⟩
        · exact fun h => dispatch_events_fifo_ready chain handled h
        · intro _ h
          cases h
        · intro h
          have hs : status = Status.returned VK_SUCCESS := h
          subst hs
          have hne := fifo_wait_status_ne_success dispatches chain []
          rw [hw] at hne
          exact absurd rfl hne
  · have hne : chain.present_mode ≠ VK_PRESENT_MODE_FIFO_KHR := by simpa using hf
    simp only [hf, if_false]
    obtain ⟨c1, c2, c3, c4, _⟩ := present_commit_spec chain image_index []
    exact ⟨c1, fun h => Or.inl (c4 h), fun h => absurd h hne, fun _ => c3⟩

/-- Shape of every call of a trace: the mode is kept; the flag is set afterwards only
if it was set before or `frame_handle_done` ran during the call; in frame-locked mode a
present call gets past its wait only if the flag was set before or `frame_handle_done`
ran during the call, and when it returns the flag is clear. -/
theorem run_call_spec (chain : wsi_wl_swapchain) (call : Call) :
    (run_call chain call).2.present_mode = chain.present_mode ∧
    ((run_call chain call).2.fifo_ready = true →
      chain.fifo_ready = true ∨ wl_event.frame_done ∈ (run_call chain call).1.handled) ∧
    (chain.present_mode = VK_PRESENT_MODE_FIFO_KHR →
      (run_call chain call).1.is_present = true →
      (run_call chain call).1.passed_wait = true →
      (chain.fifo_ready = true ∨ wl_event.frame_done ∈ (run_call chain call).1.handled) ∧
      ∀ r, (run_call chain call).1.status = Status.returned r →
        (run_call chain call).2.fifo_ready = false) := by
  cases call with
  | acquire timeout pending roundtrips =>
    simp only [run_call]
    obtain ⟨h1, h2⟩ := acquire_spec chain timeout pending roundtrips
    have hshape :
        (wsi_wl_swapchain_acquire_next_image chain timeout pending roundtrips).chain.present_mode
          = (dispatch_events chain
              (wsi_wl_swapchain_acquire_next_image chain timeout pending
                roundtrips).handled).present_mode ∧
        (wsi_wl_swapchain_acquire_next_image chain timeout pending roundtrips).chain.fifo_ready
          = (dispatch_events chain
              (wsi_wl_swapchain_acquire_next_image chain timeout pending
                roundtrips).handled).fifo_ready := by
      by_cases hs : (wsi_wl_swapchain_acquire_next_image chain timeout pending
          roundtrips).status = Status.returned VK_SUCCESS
      · obtain ⟨i, _, _, heq⟩ := h1 hs
        rw [heq]
        exact ⟨rfl, rfl⟩
      · rw [h2 hs]
        exact ⟨rfl, rfl⟩
    refine ⟨by rw [hshape.1, dispatch_events_present_mode], ?_, ?_⟩
    · intro h
      rw [hshape.2] at h
      exact dispatch_events_fifo_ready _ _ h
    · intro _ h
      cases h
  | present image_index dispatches =>
    simp only [run_call]
    obtain ⟨h1, h2, h3, _⟩ := queue_present_spec chain image_index dispatches
    exact ⟨h1, h2, fun hf _ hp => h3 hf hp⟩

theorem run_cons_returned (chain : wsi_wl_swapchain) (call : Call) (rest : List Call)
    (r : VkResult) (h : (run_call chain call).1.status = Status.returned r) :
    run chain (call :: rest) =
      ((run_call chain call).1 :: (run (run_call chain call).2 rest).1,
        (run (run_call chain call).2 rest).2) := by
  simp only [run, h]

theorem run_cons_not_returned (chain : wsi_wl_swapchain) (call : Call) (rest : List Call)
    (h : ∀ r, (run_call chain call).1.status ≠ Status.returned r) :
    run chain (call :: rest) = ([(run_call chain call).1], (run_call chain call).2) := by
  cases hs : (run_call chain call).1.status with
  | returned r => exact absurd hs (h r)
  | blocked => simp only [run, hs]
  | assert_failed => simp only [run, hs]

/-- In frame-locked mode with the flag clear, a present call of the trace gets past its
wait only after `frame_handle_done` ran during that call or an earlier one. -/
theorem run_flag_clear (calls : List Call) (chain : wsi_wl_swapchain) (j : Nat)
    (rj : CallRecord) (hmode : chain.present_mode = VK_PRESENT_MODE_FIFO_KHR)
    (hclear : chain.fifo_ready = false) (hj : (run chain calls).1[j]? = some rj)
    (hpresent : rj.is_present = true) (hpassed : rj.passed_wait = true) :
    ∃ k rk, k ≤ j ∧ (run chain calls).1[k]? = some rk ∧ wl_event.frame_done ∈ rk.handled := by
  induction calls generalizing chain j with
  | nil => simp [run] at hj
  | cons call rest ih =>
    obtain ⟨s1, s2, s3⟩ := run_call_spec chain call
    have hfirst : ∀ rest1 : List CallRecord,
        ((run_call chain call).1 :: rest1)[0]? = some rj →
        wl_event.frame_done ∈ (run_call chain call).1.handled := by
      intro rest1 h0
      simp only [List.getElem?_cons_zero, Option.some.injEq] at h0
      rw [← h0] at hpresent hpassed
      rcases (s3 hmode hpresent hpassed).1 with h | h
      · rw [hclear] at h
        cases h
      · exact h
    by_cases hret : ∃ r, (run_call chain call).1.status = Status.returned r
    · obtain ⟨r, hr⟩ := hret
      rw [run_cons_returned chain call rest r hr] at hj ⊢
      cases j with
      | zero => exact ⟨0, (run_call chain call).1, le_refl _, by simp, hfirst _ hj⟩
      | succ m =>
        simp only [List.getElem?_cons_succ] at hj
        by_cases hready : (run_call chain call).2.fifo_ready = true
        · rcases s2 hready with h | h
          · rw [hclear] at h
            cases h
          · exact ⟨0, (run_call chain call).1, Nat.zero_le _, by simp, h⟩
        · obtain ⟨k, rk, hk1, hk2, hk3⟩ := ih (run_call chain call).2 m
            (by rw [s1, hmode]) (by simpa using hready) hj
          exact ⟨k + 1, rk, by omega, by simpa using hk2, hk3⟩
    · have hnot : ∀ r, (run_call chain call).1.status ≠ Status.returned r :=
        fun r hr => hret ⟨r, hr⟩
      rw [run_cons_not_returned chain call rest hnot] at hj ⊢
      cases j with
      | zero => exact ⟨0, (run_call chain call).1, le_refl _, by simp, hfirst _ hj⟩
      | succ m => simp at hj

/-- In frame-locked mode, between any two present calls of a trace that both get past
the wait, `frame_handle_done` ran: during a call after the first of the two, up to and
including the wait of the second. -/
theorem run_presents_paced (calls : List Call) (chain : wsi_wl_swapchain) (i j : Nat)
    (ri rj : CallRecord) (hmode : chain.present_mode = VK_PRESENT_MODE_FIFO_KHR)
    (hij : i < j) (hi : (run chain calls).1[i]? = some ri)
    (hj : (run chain calls).1[j]? = some rj)
    (hpi : ri.is_present = true) (hwi : ri.passed_wait = true)
    (hpj : rj.is_present = true) (hwj : rj.passed_wait = true) :
    ∃ k rk, i < k ∧ k ≤ j ∧ (run chain calls).1[k]? = some rk ∧
      wl_event.frame_done ∈ rk.handled := by
  induction calls generalizing chain i j with
  | nil => simp [run] at hj
  | cons call rest ih =>
    obtain ⟨s1, s2, s3⟩ := run_call_spec chain call
    by_cases hret : ∃ r, (run_call chain call).1.status = Status.returned r
    · obtain ⟨r, hr⟩ := hret
      rw [run_cons_returned chain call rest r hr] at hi hj ⊢
      cases j with
      | zero => omega
      | succ m =>
        simp only [List.getElem?_cons_succ] at hj
        have hmode1 : (run_call chain call).2.present_mode = VK_PRESENT_MODE_FIFO_KHR := by
          rw [s1, hmode]
        cases i with
        | zero =>
          simp only [List.getElem?_cons_zero, Option.some.injEq] at hi
          rw [← hi] at hpi hwi
          have hclear := (s3 hmode hpi hwi).2 r hr
          obtain ⟨k, rk, hk1, hk2, hk3⟩ :=
            run_flag_clear rest (run_call chain call).2 m rj hmode1 hclear hj hpj hwj
          exact ⟨k + 1, rk, by omega, by omega, by simpa using hk2, hk3⟩
        | succ n =>
          simp only [List.getElem?_cons_succ] at hi
          obtain ⟨k, rk, hk0, hk1, hk2, hk3⟩ :=
            ih (run_call chain call).2 n m hmode1 (by omega) hi hj
          exact ⟨k + 1, rk, by omega, by omega, by simpa using hk2, hk3⟩
    · have hnot : ∀ r, (run_call chain call).1.status ≠ Status.returned r :=
        fun r hr => hret ⟨r, hr⟩
      rw [run_cons_not_returned chain call rest hnot] at hj
      cases j with
      | zero => omega
      | succ m => simp at hj

/-- C5: frame pacing. The flag `fifo_ready` is true in the swapchain construction hands
back; it is false after every frame-locked present that returns success; a call leaves
it true only if it was true before or `frame_handle_done` ran during the call, and
among the listeners only `frame_handle_done` sets it. Hence, in every trace of calls on
a frame-locked swapchain, between two present calls that both get past the wait step
`frame_handle_done` ran: in a call after the first of the two, at the latest in the
wait of the second. -/
theorem frame_pacing_invariant :
    (∀ (surface : VkIcdSurfaceWayland) (info : VkSwapchainCreateInfoKHR) (env : CreateEnv)
        (out : CreateOutcome) (chain : wsi_wl_swapchain),
      wsi_wl_surface_create_swapchain surface info env = some out →
      out.swapchain_out = some chain → chain.fifo_ready = true) ∧
    (∀ (chain : wsi_wl_swapchain) (image_index : Nat) (dispatches : List Dispatch),
      chain.present_mode = VK_PRESENT_MODE_FIFO_KHR →
      (wsi_wl_swapchain_queue_present chain image_index dispatches).status
          = Status.returned VK_SUCCESS →
      (wsi_wl_swapchain_queue_present chain image_index dispatches).passed_wait = true ∧
      (wsi_wl_swapchain_queue_present chain image_index dispatches).chain.fifo_ready
          = false) ∧
    (∀ (chain : wsi_wl_swapchain) (call : Call),
      (run_call chain call).2.fifo_ready = true →
      chain.fifo_ready = true ∨ wl_event.frame_done ∈ (run_call chain call).1.handled) ∧
    (∀ (chain : wsi_wl_swapchain) (e : wl_event),
      (handle_event chain e).fifo_ready = true →
      chain.fifo_ready = true ∨ e = wl_event.frame_done) ∧
    (∀ (chain : wsi_wl_swapchain) (calls : List Call) (i j : Nat) (ri rj : CallRecord),
      chain.present_mode = VK_PRESENT_MODE_FIFO_KHR → i < j →
      (run chain calls).1[i]? = some ri → (run chain calls).1[j]? = some rj →
      ri.is_present = true → ri.passed_wait = true →
      rj.is_present = true → rj.passed_wait = true →
      ∃ k rk, i < k ∧ k ≤ j ∧ (run chain calls).1[k]? = some rk ∧
        wl_event.frame_done ∈ rk.handled) := by
  refine ⟨?_, ?_, ?_, ?_, ?_⟩
  · intro surface info env out chain hcreate hout
    exact (create_swapchain_spec surface info env out chain hcreate hout).2.2.2.1
  · intro chain image_index dispatches hmode hstatus
    obtain ⟨_, _, h3, h4⟩ := queue_present_spec chain image_index dispatches
    exact ⟨h4 hstatus, (h3 hmode (h4 hstatus)).2 _ hstatus⟩
  · intro chain call h
    exact (run_call_spec chain call).2.1 h
  · intro chain e h
    exact handle_event_fifo_ready chain e h
  · intro chain calls i j ri rj hmode hij hi hj hpi hwi hpj hwj
    exact run_presents_paced calls chain i j ri rj hmode hij hi hj hpi hwi hpj hwj

/-- C5, witness: in `sample_trace` the presents are the calls 1 and 3; the second one
finds the flag clear and gets past the wait after `frame_handle_done` ran. -/
theorem frame_pacing_invariant_witness :
    sample_chain_four.present_mode = VK_PRESENT_MODE_FIFO_KHR ∧
    (run sample_chain_four sample_trace).1[1]? = some ⟨true, Status.returned VK_SUCCESS,
      none, [], true⟩ ∧
    (run sample_chain_four sample_trace).1[3]? = some ⟨true, Status.returned VK_SUCCESS,
      none, [wl_event.frame_done, wl_event.buffer_release 0], true⟩ ∧
    (∃ k rk, 1 < k ∧ k ≤ 3 ∧ (run sample_chain_four sample_trace).1[k]? = some rk ∧
      wl_event.frame_done ∈ rk.handled) ∧
    (wsi_wl_swapchain_queue_present sample_chain_four 0 []).chain.fifo_ready = false :=
  ⟨rfl, by decide, by decide,
    frame_pacing_invariant.2.2.2.2 sample_chain_four sample_trace 1 3
      ⟨true, Status.returned VK_SUCCESS, none, [], true⟩
      ⟨true, Status.returned VK_SUCCESS, none,
        [wl_event.frame_done, wl_event.buffer_release 0], true⟩
      rfl (by decide) (by decide) (by decide) rfl rfl rfl rfl,
    (frame_pacing_invariant.2.1 sample_chain_four 0 [] rfl (by decide)).2⟩

/-! ## Format catalog -/

theorem format_listed_iff (l : List VkFormat) (format : VkFormat) :
    format_listed l format = true ↔ format ∈ l := by
  induction l with
  | nil => simp [format_listed]
  | cons f rest ih =>
    unfold format_listed
    by_cases h : f = format
    · simp [h]
    · have h1 : ¬ format = f := fun e => h e.symm
      simp [h, h1, ih]

/-- What one insertion does: nothing when the format is listed or not renderable, and
an append at the end otherwise. -/
theorem add_vk_format_eq (wsi : wsi_wayland) (display : wsi_wl_display) (format : VkFormat) :
    wsi_wl_display_add_vk_format wsi display format =
      if format ∈ display.formats ∨ color_renderable wsi format = false then display
      else { display with formats := display.formats ++ [format] } := by
  unfold wsi_wl_display_add_vk_format
  by_cases hl : format ∈ display.formats
  · simp [(format_listed_iff _ _).mpr hl, hl]
  · have hl1 : format_listed display.formats format = false := by
      cases h : format_listed display.formats format with
      | false => rfl
      | true => exact absurd ((format_listed_iff _ _).mp h) hl
    by_cases hr : (wsi.cbs.get_phys_device_format_properties wsi.physical_device
        format).optimalTilingFeatures &&& VK_FORMAT_FEATURE_COLOR_ATTACHMENT_BIT = 0
    · simp [hl1, hl, hr, color_renderable]
    · simp [hl1, hl, hr, color_renderable, u_vector_add]

theorem add_vk_format_mem (wsi : wsi_wayland) (display : wsi_wl_display)
    (format f : VkFormat)
    (h : f ∈ (wsi_wl_display_add_vk_format wsi display format).formats) :
    f ∈ display.formats ∨ (f = format ∧ color_renderable wsi format = true) := by
  rw [add_vk_format_eq] at h
  by_cases hc : format ∈ display.formats ∨ color_renderable wsi format = false
  · rw [if_pos hc] at h
    exact Or.inl h
  · rw [if_neg hc] at h
    simp only [List.mem_append, List.mem_singleton] at h
    rcases h with h | h
    · exact Or.inl h
    · right
      refine ⟨h, ?_⟩
      cases hr : color_renderable wsi format with
      | true => rfl
      | false => exact absurd (Or.inr hr) hc

theorem add_vk_format_subset (wsi : wsi_wayland) (display : wsi_wl_display)
    (format f : VkFormat) (h : f ∈ display.formats) :
    f ∈ (wsi_wl_display_add_vk_format wsi display format).formats := by
  rw [add_vk_format_eq]
  by_cases hc : format ∈ display.formats ∨ color_renderable wsi format = false
  · rw [if_pos hc]
    exact h
  · rw [if_neg hc]
    exact List.mem_append_left _ h

/-- After an insertion the format is listed or not renderable, so that inserting it
again changes nothing. -/
theorem add_vk_format_settled (wsi : wsi_wayland) (display : wsi_wl_display)
    (format : VkFormat) :
    format ∈ (wsi_wl_display_add_vk_format wsi display format).formats ∨
      color_renderable wsi format = false := by
  rw [add_vk_format_eq]
  by_cases hc : format ∈ display.formats ∨ color_renderable wsi format = false
  · rw [if_pos hc]
    exact hc
  · rw [if_neg hc]
    exact Or.inl (by simp)

theorem add_vk_format_noop (wsi : wsi_wayland) (display : wsi_wl_display)
    (format : VkFormat)
    (h : format ∈ display.formats ∨ color_renderable wsi format = false) :
    wsi_wl_display_add_vk_format wsi display format = display := by
  rw [add_vk_format_eq, if_pos h]

theorem drm_handle_format_mem (wsi : wsi_wayland) (display : wsi_wl_display) (w : Nat)
    (f : VkFormat) (h : f ∈ (drm_handle_format wsi display w).formats) :
    f ∈ display.formats ∨ color_renderable wsi f = true := by
  unfold drm_handle_format at h
  by_cases hx : w = WL_DRM_FORMAT_XRGB8888
  · simp only [hx, if_true] at h
    rcases add_vk_format_mem _ _ _ _ h with h | ⟨rfl, hr⟩
    · rcases add_vk_format_mem _ _ _ _ h with h | ⟨rfl, hr⟩
      · rcases add_vk_format_mem _ _ _ _ h with h | ⟨rfl, hr⟩
        · rcases add_vk_format_mem _ _ _ _ h with h | ⟨rfl, hr⟩
          · exact Or.inl h
          · exact Or.inr hr
        · exact Or.inr hr
      · exact Or.inr hr
    · exact Or.inr hr
  · by_cases ha : w = WL_DRM_FORMAT_ARGB8888
    · simp only [hx, ha, if_true, if_false] at h
      rcases add_vk_format_mem _ _ _ _ h with h | ⟨rfl, hr⟩
      · rcases add_vk_format_mem _ _ _ _ h with h | ⟨rfl, hr⟩
        · exact Or.inl h
        · exact Or.inr hr
      · exact Or.inr hr
    · simp only [hx, ha, if_false] at h
      exact Or.inl h

theorem drm_handle_formats_mem (wsi : wsi_wayland) (adverts : List Nat)
    (display : wsi_wl_display) (f : VkFormat)
    (h : f ∈ (drm_handle_formats wsi display adverts).formats) :
    f ∈ display.formats ∨ color_renderable wsi f = true := by
  induction adverts generalizing display with
  | nil => exact Or.inl h
  | cons w rest ih =>
    have h1 : f ∈ (drm_handle_formats wsi (drm_handle_format wsi display w) rest).formats := h
    rcases ih _ h1 with h2 | h2
    · exact drm_handle_format_mem wsi display w f h2
    · exact Or.inr h2

/-- C6: renderability filter. Starting from the empty catalog, after any sequence of
advertisements handled by `drm_handle_format`, every format in the catalog is one for
which the driver reports color-attachment support. -/
theorem catalog_formats_renderable (wsi : wsi_wayland) (wl_display : Nat)
    (adverts : List Nat) (f : VkFormat)
    (h : f ∈ (drm_handle_formats wsi (empty_display wl_display) adverts).formats) :
    color_renderable wsi f = true := by
  rcases drm_handle_formats_mem wsi adverts (empty_display wl_display) f h with h1 | h1
  · simp [empty_display] at h1
  · exact h1

/-- C6, witness: with only the alpha formats renderable, the catalog built from an
XRGB8888 and an ARGB8888 advertisement lists `VK_FORMAT_B8G8R8A8_SRGB`, which is
renderable. -/
theorem catalog_formats_renderable_witness :
    VK_FORMAT_B8G8R8A8_SRGB ∈
      (drm_handle_formats sample_wsi_alpha (empty_display 3)
        [WL_DRM_FORMAT_XRGB8888, WL_DRM_FORMAT_ARGB8888]).formats ∧
    color_renderable sample_wsi_alpha VK_FORMAT_B8G8R8A8_SRGB = true :=
  ⟨by decide,
    catalog_formats_renderable sample_wsi_alpha 3
      [WL_DRM_FORMAT_XRGB8888, WL_DRM_FORMAT_ARGB8888] VK_FORMAT_B8G8R8A8_SRGB (by decide)⟩

/-- Handling an advertisement leaves each format it tries to insert listed or not
renderable, hence handling it again changes nothing. -/
theorem drm_handle_format_twice (wsi : wsi_wayland) (display : wsi_wl_display) (w : Nat) :
    drm_handle_format wsi (drm_handle_format wsi display w) w
      = drm_handle_format wsi display w := by
  have keep : ∀ (d : wsi_wl_display) (g f : VkFormat),
      (f ∈ d.formats ∨ color_renderable wsi f = false) →
      (f ∈ (wsi_wl_display_add_vk_format wsi d g).formats ∨
        color_renderable wsi f = false) := by
    intro d g f h
    rcases h with h | h
    · exact Or.inl (add_vk_format_subset wsi d g f h)
    · exact Or.inr h
  by_cases hx : w = WL_DRM_FORMAT_XRGB8888
  · have e : ∀ d, drm_handle_format wsi d w =
        wsi_wl_display_add_vk_format wsi
          (wsi_wl_display_add_vk_format wsi
            (wsi_wl_display_add_vk_format wsi
              (wsi_wl_display_add_vk_format wsi d VK_FORMAT_B8G8R8_SRGB)
              VK_FORMAT_B8G8R8_UNORM)
            VK_FORMAT_B8G8R8A8_SRGB)
          VK_FORMAT_B8G8R8A8_UNORM := by
      intro d
      unfold drm_handle_format
      rw [if_pos hx]
    rw [e (drm_handle_format wsi display w)]
    have s1 := keep _ VK_FORMAT_B8G8R8A8_UNORM _
      (keep _ VK_FORMAT_B8G8R8A8_SRGB _
        (keep _ VK_FORMAT_B8G8R8_UNORM _
          (add_vk_format_settled wsi display VK_FORMAT_B8G8R8_SRGB)))
    have s2 := keep _ VK_FORMAT_B8G8R8A8_UNORM _
      (keep _ VK_FORMAT_B8G8R8A8_SRGB _
        (add_vk_format_settled wsi
          (wsi_wl_display_add_vk_format wsi display VK_FORMAT_B8G8R8_SRGB)
          VK_FORMAT_B8G8R8_UNORM))
    have s3 := keep _ VK_FORMAT_B8G8R8A8_UNORM _
      (add_vk_format_settled wsi
        (wsi_wl_display_add_vk_format wsi
          (wsi_wl_display_add_vk_format wsi display VK_FORMAT_B8G8R8_SRGB)
          VK_FORMAT_B8G8R8_UNORM)
        VK_FORMAT_B8G8R8A8_SRGB)
    have s4 := add_vk_format_settled wsi
      (wsi_wl_display_add_vk_format wsi
        (wsi_wl_display_add_vk_format wsi
          (wsi_wl_display_add_vk_format wsi display VK_FORMAT_B8G8R8_SRGB)
          VK_FORMAT_B8G8R8_UNORM)
        VK_FORMAT_B8G8R8A8_SRGB)
      VK_FORMAT_B8G8R8A8_UNORM
    rw [← e display] at s1 s2 s3 s4
    rw [add_vk_format_noop wsi _ VK_FORMAT_B8G8R8_SRGB s1,
      add_vk_format_noop wsi _ VK_FORMAT_B8G8R8_UNORM s2,
      add_vk_format_noop wsi _ VK_FORMAT_B8G8R8A8_SRGB s3,
      add_vk_format_noop wsi _ VK_FORMAT_B8G8R8A8_UNORM s4]
  · by_cases ha : w = WL_DRM_FORMAT_ARGB8888
    · have e : ∀ d, drm_handle_format wsi d w =
          wsi_wl_display_add_vk_format wsi
            (wsi_wl_display_add_vk_format wsi d VK_FORMAT_B8G8R8A8_SRGB)
            VK_FORMAT_B8G8R8A8_UNORM := by
        intro d
        unfold drm_handle_format
        rw [if_neg hx, if_pos ha]
      rw [e (drm_handle_format wsi display w)]
      have s1 := keep _ VK_FORMAT_B8G8R8A8_UNORM _
        (add_vk_format_settled wsi display VK_FORMAT_B8G8R8A8_SRGB)
      have s2 := add_vk_format_settled wsi
        (wsi_wl_display_add_vk_format wsi display VK_FORMAT_B8G8R8A8_SRGB)
        VK_FORMAT_B8G8R8A8_UNORM
      rw [← e display] at s1 s2
      rw [add_vk_format_noop wsi _ VK_FORMAT_B8G8R8A8_SRGB s1,
        add_vk_format_noop wsi _ VK_FORMAT_B8G8R8A8_UNORM s2]
    · unfold drm_handle_format
      rw [if_neg hx, if_neg ha, if_neg hx, if_neg ha]

/-- C7: insertion into the catalog is idempotent and duplicate-free. On a catalog
without duplicates, `wsi_wl_display_add_vk_format` leaves a catalog without duplicates
that is the old one, or the old one with the format appended at the end; inserting the
same format again changes nothing; a renderable format inserted twice into the empty
catalog gives a catalog of exactly that one format; and handling the same
advertisement twice gives the catalog of handling it once. -/
theorem add_vk_format_idempotent (wsi : wsi_wayland) (display : wsi_wl_display)
    (format : VkFormat) (hnodup : display.formats.Nodup) :
    (wsi_wl_display_add_vk_format wsi display format).formats.Nodup ∧
    ((wsi_wl_display_add_vk_format wsi display format).formats = display.formats ∨
      (wsi_wl_display_add_vk_format wsi display format).formats
        = display.formats ++ [format]) ∧
    wsi_wl_display_add_vk_format wsi
        (wsi_wl_display_add_vk_format wsi display format) format
      = wsi_wl_display_add_vk_format wsi display format ∧
    (color_renderable wsi format = true →
      (wsi_wl_display_add_vk_format wsi
        (wsi_wl_display_add_vk_format wsi { display with formats := [] } format)
        format).formats = [format]) ∧
    (∀ w : Nat,
      drm_handle_format wsi (drm_handle_format wsi display w) w
        = drm_handle_format wsi display w) := by
  refine ⟨?_, ?_, ?_, ?_, ?_⟩
  · rw [add_vk_format_eq]
    by_cases hc : format ∈ display.formats ∨ color_renderable wsi format = false
    · rw [if_pos hc]
      exact hnodup
    · rw [if_neg hc]
      have hnot : format ∉ display.formats := fun h => hc (Or.inl h)
      refine List.Nodup.append hnodup (List.nodup_singleton _) ?_
      intro a ha hmem
      rw [List.mem_singleton] at hmem
      exact hnot (hmem ▸ ha)
  · rw [add_vk_format_eq]
    by_cases hc : format ∈ display.formats ∨ color_renderable wsi format = false
    · rw [if_pos hc]
      exact Or.inl rfl
    · rw [if_neg hc]
      exact Or.inr rfl
  · exact add_vk_format_noop wsi _ format (add_vk_format_settled wsi display format)
  · intro hr
    rw [add_vk_format_noop wsi _ format (add_vk_format_settled wsi _ format),
      add_vk_format_eq]
    simp [hr]
  · intro w
    exact drm_handle_format_twice wsi display w

/-- C7, witness: the catalog of `sample_display` has no duplicates; inserting a format
it lists changes nothing, and a renderable format inserted twice into the empty catalog
gives a catalog of size 1. -/
theorem add_vk_format_idempotent_witness :
    sample_display.formats.Nodup ∧
    (wsi_wl_display_add_vk_format sample_wsi_all sample_display
      VK_FORMAT_B8G8R8_UNORM).formats.Nodup ∧
    (wsi_wl_display_add_vk_format sample_wsi_all
      (wsi_wl_display_add_vk_format sample_wsi_all { sample_display with formats := [] }
        VK_FORMAT_B8G8R8_UNORM)
      VK_FORMAT_B8G8R8_UNORM).formats = [VK_FORMAT_B8G8R8_UNORM] :=
  ⟨by decide,
    (add_vk_format_idempotent sample_wsi_all sample_display VK_FORMAT_B8G8R8_UNORM
      (by decide)).1,
    (add_vk_format_idempotent sample_wsi_all sample_display VK_FORMAT_B8G8R8_UNORM
      (by decide)).2.2.2.1 (by decide)⟩

/-- Inserting a format that is not listed appends it when the driver reports it
renderable. -/
theorem add_vk_format_fresh (wsi : wsi_wayland) (display : wsi_wl_display)
    (format : VkFormat) (h : format ∉ display.formats) :
    wsi_wl_display_add_vk_format wsi display format =
      { display with
        formats := display.formats ++ [format].filter (color_renderable wsi) } := by
  rw [add_vk_format_eq]
  cases hr : color_renderable wsi format with
  | true => simp [h, hr]
  | false => simp [hr]

/-- C8, as stated, fails: with every format renderable, one XRGB8888 advertisement on
the empty catalog inserts four entries, the sRGB and linear variants of two renderer
formats. -/
theorem xrgb_advertisement_inserts_four :
    (drm_handle_format sample_wsi_all (empty_display 3) WL_DRM_FORMAT_XRGB8888).formats =
      [VK_FORMAT_B8G8R8_SRGB, VK_FORMAT_B8G8R8_UNORM, VK_FORMAT_B8G8R8A8_SRGB,
        VK_FORMAT_B8G8R8A8_UNORM] ∧
    ¬ (drm_handle_format sample_wsi_all (empty_display 3)
        WL_DRM_FORMAT_XRGB8888).formats.length ≤ 2 := by
  constructor <;> decide

/-- C8, amended: one advertisement on the empty catalog inserts, in this order, the
renderable ones among `B8G8R8_SRGB`, `B8G8R8_UNORM`, `B8G8R8A8_SRGB`, `B8G8R8A8_UNORM`
for XRGB8888 (up to four entries: an sRGB and a linear variant of each of two renderer
formats), the renderable ones among `B8G8R8A8_SRGB`, `B8G8R8A8_UNORM` for ARGB8888
(up to two entries), and nothing for any other wire format, which leaves the
connection record as it was; the listener has no error to raise. -/
theorem drm_handle_format_mapping (wsi : wsi_wayland) (wl_display : Nat) (w : Nat) :
    drm_handle_format wsi (empty_display wl_display) w =
      { empty_display wl_display with
        formats :=
          (if w = WL_DRM_FORMAT_XRGB8888 then
            [VK_FORMAT_B8G8R8_SRGB, VK_FORMAT_B8G8R8_UNORM, VK_FORMAT_B8G8R8A8_SRGB,
              VK_FORMAT_B8G8R8A8_UNORM]
          else if w = WL_DRM_FORMAT_ARGB8888 then
            [VK_FORMAT_B8G8R8A8_SRGB, VK_FORMAT_B8G8R8A8_UNORM]
          else []).filter (color_renderable wsi) } ∧
    (drm_handle_format wsi (empty_display wl_display) w).formats.length ≤ 4 ∧
    (w = WL_DRM_FORMAT_ARGB8888 →
      (drm_handle_format wsi (empty_display wl_display) w).formats.length ≤ 2) ∧
    (∀ display : wsi_wl_display,
      w ≠ WL_DRM_FORMAT_XRGB8888 → w ≠ WL_DRM_FORMAT_ARGB8888 →
      drm_handle_format wsi display w = display) := by
  have hfold : ∀ (fs : List VkFormat) (d : wsi_wl_display),
      fs.Nodup → (∀ f ∈ fs, f ∉ d.formats) →
      fs.foldl (wsi_wl_display_add_vk_format wsi) d =
        { d with formats := d.formats ++ fs.filter (color_renderable wsi) } := by
    intro fs
    induction fs with
    | nil => intro d _ _; simp
    | cons f rest ih =>
      intro d hnodup hfresh
      have hf : f ∉ d.formats := hfresh f (List.mem_cons_self _ _)
      have hrest : rest.Nodup := (List.nodup_cons.mp hnodup).2
      have hnot : f ∉ rest := (List.nodup_cons.mp hnodup).1
      rw [List.foldl_cons, add_vk_format_fresh wsi d f hf, ih _ hrest]
      · cases hr : color_renderable wsi f <;> simp [List.filter_cons, hr]
      · intro g hg hmem
        simp only [List.mem_append, List.mem_filter, List.mem_singleton] at hmem
        rcases hmem with hmem | hmem
        · exact hfresh g (List.mem_cons_of_mem _ hg) hmem
        · exact hnot (hmem.1 ▸ hg)
  have hmain : drm_handle_format wsi (empty_display wl_display) w =
      { empty_display wl_display with
        formats :=
          (if w = WL_DRM_FORMAT_XRGB8888 then
            [VK_FORMAT_B8G8R8_SRGB, VK_FORMAT_B8G8R8_UNORM, VK_FORMAT_B8G8R8A8_SRGB,
              VK_FORMAT_B8G8R8A8_UNORM]
          else if w = WL_DRM_FORMAT_ARGB8888 then
            [VK_FORMAT_B8G8R8A8_SRGB, VK_FORMAT_B8G8R8A8_UNORM]
          else []).filter (color_renderable wsi) } := by
    by_cases hx : w = WL_DRM_FORMAT_XRGB8888
    · have e : drm_handle_format wsi (empty_display wl_display) w =
          [VK_FORMAT_B8G8R8_SRGB, VK_FORMAT_B8G8R8_UNORM, VK_FORMAT_B8G8R8A8_SRGB,
            VK_FORMAT_B8G8R8A8_UNORM].foldl (wsi_wl_display_add_vk_format wsi)
            (empty_display wl_display) := by
        unfold drm_handle_format
        rw [if_pos hx]
        rfl
      rw [e, if_pos hx, hfold _ _ (by decide) (by simp [empty_display])]
      simp [empty_display]
    · by_cases ha : w = WL_DRM_FORMAT_ARGB8888
      · have e : drm_handle_format wsi (empty_display wl_display) w =
            [VK_FORMAT_B8G8R8A8_SRGB, VK_FORMAT_B8G8R8A8_UNORM].foldl
              (wsi_wl_display_add_vk_format wsi) (empty_display wl_display) := by
          unfold drm_handle_format
          rw [if_neg hx, if_pos ha]
          rfl
        rw [e, if_neg hx, if_pos ha, hfold _ _ (by decide) (by simp [empty_display])]
        simp [empty_display]
      · unfold drm_handle_format
        rw [if_neg hx, if_neg ha, if_neg hx, if_neg ha]
        rfl
  refine ⟨hmain, ?_, ?_, ?_⟩
  · rw [hmain]
    refine le_trans (List.length_filter_le _ _) ?_
    split_ifs <;> simp
  · intro ha
    rw [hmain]
    refine le_trans (List.length_filter_le _ _) ?_
    have hx : w ≠ WL_DRM_FORMAT_XRGB8888 := by
      rw [ha]
      decide
    rw [if_neg hx, if_pos ha]
    simp
  · intro display hx ha
    unfold drm_handle_format
    rw [if_neg hx, if_neg ha]

/-- C8, witness: an XRGB8888 advertisement with only the alpha formats renderable
inserts exactly the two alpha variants, an ARGB8888 advertisement inserts at most two
entries, and a wire format without mapping leaves the record unchanged. -/
theorem drm_handle_format_mapping_witness :
    (drm_handle_format sample_wsi_alpha (empty_display 3) WL_DRM_FORMAT_XRGB8888).formats
      = [VK_FORMAT_B8G8R8A8_SRGB, VK_FORMAT_B8G8R8A8_UNORM] ∧
    (drm_handle_format sample_wsi_all (empty_display 3)
      WL_DRM_FORMAT_ARGB8888).formats.length ≤ 2 ∧
    drm_handle_format sample_wsi_all sample_display WL_DRM_FORMAT_BGRX8888 = sample_display :=
  ⟨(congrArg wsi_wl_display.formats
      (drm_handle_format_mapping sample_wsi_alpha 3 WL_DRM_FORMAT_XRGB8888).1).trans
      (by decide),
    (drm_handle_format_mapping sample_wsi_all 3 WL_DRM_FORMAT_ARGB8888).2.2.1 rfl,
    (drm_handle_format_mapping sample_wsi_all 3 WL_DRM_FORMAT_BGRX8888).2.2.2 sample_display
      (by decide) (by decide)⟩

/-! ## Surface queries -/

/-- The write loop overwrites as many elements as there are formats, starting at the
position it is given, and nothing else. -/
theorem write_formats_append (fs : List VkFormat)
    (pre mid post : List VkSurfaceFormatKHR) (hmid : mid.length = fs.length) :
    write_formats fs pre.length (pre ++ mid ++ post) =
      pre ++ fs.map (fun f => ⟨f, VK_COLORSPACE_SRGB_NONLINEAR_KHR⟩) ++ post := by
  induction fs generalizing pre mid with
  | nil =>
    have hnil : mid = [] := List.length_eq_zero.mp hmid
    subst hnil
    simp [write_formats]
  | cons f rest ih =>
    cases mid with
    | nil => simp at hmid
    | cons m mid1 =>
      have hset : (pre ++ m :: mid1 ++ post).set pre.length
          (⟨f, VK_COLORSPACE_SRGB_NONLINEAR_KHR⟩ : VkSurfaceFormatKHR) =
          (pre ++ [⟨f, VK_COLORSPACE_SRGB_NONLINEAR_KHR⟩]) ++ mid1 ++ post := by
        rw [List.append_assoc, List.set_append_right _ _ (le_refl _)]
        simp
      have hlen : (pre ++ [(⟨f, VK_COLORSPACE_SRGB_NONLINEAR_KHR⟩ : VkSurfaceFormatKHR)]).length
          = pre.length + 1 := by simp
      unfold write_formats
      rw [hset, ← hlen, ih _ mid1 (by simpa using hmid)]
      simp

theorem write_formats_zero (fs : List VkFormat) (out : List VkSurfaceFormatKHR)
    (h : fs.length ≤ out.length) :
    write_formats fs 0 out =
      fs.map (fun f => ⟨f, VK_COLORSPACE_SRGB_NONLINEAR_KHR⟩) ++ out.drop fs.length := by
  have hsplit : out = [] ++ out.take fs.length ++ out.drop fs.length := by simp
  have hmid : (out.take fs.length).length = fs.length := by
    rw [List.length_take]
    exact Nat.min_eq_left h
  have := write_formats_append fs [] (out.take fs.length) (out.drop fs.length) hmid
  rw [← hsplit] at this
  simpa using this

/-- C9: the two-call protocol of getFormats on a resolved connection. With a null
output array the call returns success, reports the number of formats in the catalog and
leaves the connection record as it was. With an output array whose capacity is at least
that number, it returns success, reports the number, writes the catalog's formats in
insertion order at the start of the array, each with the color space
`VK_COLORSPACE_SRGB_NONLINEAR_KHR`, leaves the rest of the array alone, and leaves the
connection record as it was. -/
theorem get_formats_two_call (d : wsi_wl_display) (capacity : Nat)
    (out : List VkSurfaceFormatKHR) :
    ((wsi_wl_surface_get_formats (some d) capacity none).status
        = Status.returned VK_SUCCESS ∧
      (wsi_wl_surface_get_formats (some d) capacity none).pSurfaceFormatCount
        = d.formats.length ∧
      (wsi_wl_surface_get_formats (some d) capacity none).pSurfaceFormats = none ∧
      (wsi_wl_surface_get_formats (some d) capacity none).display = some d) ∧
    (d.formats.length ≤ capacity → capacity ≤ out.length →
      (wsi_wl_surface_get_formats (some d) capacity (some out)).status
        = Status.returned VK_SUCCESS ∧
      (wsi_wl_surface_get_formats (some d) capacity (some out)).pSurfaceFormatCount
        = d.formats.length ∧
      (wsi_wl_surface_get_formats (some d) capacity (some out)).pSurfaceFormats
        = some (d.formats.map (fun f => ⟨f, VK_COLORSPACE_SRGB_NONLINEAR_KHR⟩)
            ++ out.drop d.formats.length) ∧
      (wsi_wl_surface_get_formats (some d) capacity (some out)).display = some d) := by
  refine ⟨⟨rfl, rfl, rfl, rfl⟩, ?_⟩
  intro hcap hout
  have hge : capacity ≥ d.formats.length := hcap
  simp only [wsi_wl_surface_get_formats, hge, if_true]
  refine ⟨trivial, trivial, ?_, trivial⟩
  rw [write_formats_zero d.formats out (le_trans hcap hout)]

/-- C9, witness: the catalog of `sample_display` holds two formats; the first call
reports 2, the second call with a three-element array writes the two formats in
order. -/
theorem get_formats_two_call_witness :
    sample_display.formats.length ≤ 3 ∧
    (wsi_wl_surface_get_formats (some sample_display) 0 none).pSurfaceFormatCount = 2 ∧
    (wsi_wl_surface_get_formats (some sample_display) 3
        (some [⟨1, 1⟩, ⟨2, 2⟩, ⟨3, 3⟩])).pSurfaceFormats
      = some [⟨VK_FORMAT_B8G8R8A8_SRGB, VK_COLORSPACE_SRGB_NONLINEAR_KHR⟩,
          ⟨VK_FORMAT_B8G8R8A8_UNORM, VK_COLORSPACE_SRGB_NONLINEAR_KHR⟩, ⟨3, 3⟩] :=
  ⟨by decide,
    (get_formats_two_call sample_display 0 []).1.2.1,
    ((get_formats_two_call sample_display 3 [⟨1, 1⟩, ⟨2, 2⟩, ⟨3, 3⟩]).2
      (by decide) (by decide)).2.2.1⟩

/-- The copy writes `count` elements of the source at the start of the destination and
leaves the rest alone. -/
theorem typed_memcpy_eq (dest : List VkPresentModeKHR) (src : Nat → VkPresentModeKHR)
    (count : Nat) (h : count ≤ dest.length) :
    typed_memcpy dest src count = (List.range count).map src ++ dest.drop count := by
  induction count with
  | zero => simp [typed_memcpy]
  | succ c ih =>
    have hc : c < dest.length := h
    unfold typed_memcpy
    have hd : (List.drop c dest).set 0 (src c) = src c :: List.drop (c + 1) dest := by
      rw [List.drop_eq_getElem_cons hc]
      rfl
    rw [ih (le_of_lt hc), List.set_append_right _ _ (by simp)]
    simp [List.range_succ, hd]

/-- C10, as stated, fails: with a two-element output array the call writes the
unthrottled mode (MAILBOX) at index 0 and the frame-locked mode (FIFO) at index 1. -/
theorem get_present_modes_frame_locked_second :
    (wsi_wl_surface_get_present_modes (fun _ => 0) 2 (some [0, 0])).pPresentModes
      = some [VK_PRESENT_MODE_MAILBOX_KHR, VK_PRESENT_MODE_FIFO_KHR] ∧
    (wsi_wl_surface_get_present_modes (fun _ => 0) 2 (some [0, 0])).pPresentModes.bind
      (fun modes => modes[0]?) ≠ some VK_PRESENT_MODE_FIFO_KHR ∧
    (wsi_wl_surface_get_present_modes (fun _ => 0) 2 (some [0, 0])).pPresentModes.bind
      (fun modes => modes[1]?) ≠ some VK_PRESENT_MODE_MAILBOX_KHR := by
  refine ⟨?_, ?_, ?_⟩ <;> decide

/-- C10, amended: getPresentModes returns a fixed two-element ordered list with the
unthrottled mode (MAILBOX) first and the frame-locked mode (FIFO) second. With a null
output array the call returns success and reports count 2; with an output array of
capacity at least 2 it returns success, writes MAILBOX at index 0 and FIFO at index 1,
and reports count 2. -/
theorem get_present_modes_mailbox_first (after_table : Nat → VkPresentModeKHR)
    (capacity : Nat) (out : List VkPresentModeKHR) :
    ((wsi_wl_surface_get_present_modes after_table capacity none).status
        = Status.returned VK_SUCCESS ∧
      (wsi_wl_surface_get_present_modes after_table capacity none).pPresentModeCount = 2 ∧
      (wsi_wl_surface_get_present_modes after_table capacity none).pPresentModes = none) ∧
    (2 ≤ capacity → capacity ≤ out.length →
      (wsi_wl_surface_get_present_modes after_table capacity (some out)).status
        = Status.returned VK_SUCCESS ∧
      (wsi_wl_surface_get_present_modes after_table capacity (some out)).pPresentModeCount
        = 2 ∧
      (wsi_wl_surface_get_present_modes after_table capacity (some out)).pPresentModes.bind
        (fun modes => modes[0]?) = some VK_PRESENT_MODE_MAILBOX_KHR ∧
      (wsi_wl_surface_get_present_modes after_table capacity (some out)).pPresentModes.bind
        (fun modes => modes[1]?) = some VK_PRESENT_MODE_FIFO_KHR) := by
  refine ⟨⟨rfl, rfl, rfl⟩, ?_⟩
  intro hcap hout
  have hge : capacity ≥ present_modes.length := hcap
  simp only [wsi_wl_surface_get_present_modes, hge, if_true, Option.bind_some]
  rw [typed_memcpy_eq out _ capacity hout]
  obtain ⟨c, rfl⟩ : ∃ c, capacity = c + 2 := ⟨capacity - 2, by omega⟩
  refine ⟨trivial, rfl, ?_, ?_⟩
  · simp [List.range_succ_eq_map, present_modes]
  · simp [List.range_succ_eq_map, present_modes]

/-- C10, witness: a caller with room for three modes. -/
theorem get_present_modes_mailbox_first_witness :
    (2 : Nat) ≤ 3 ∧ 3 ≤ [9, 9, 9, 9].length ∧
    (wsi_wl_surface_get_present_modes (fun _ => 77) 3 (some [9, 9, 9, 9])).pPresentModes.bind
      (fun modes => modes[0]?) = some VK_PRESENT_MODE_MAILBOX_KHR ∧
    (wsi_wl_surface_get_present_modes (fun _ => 77) 3 (some [9, 9, 9, 9])).pPresentModes.bind
      (fun modes => modes[1]?) = some VK_PRESENT_MODE_FIFO_KHR :=
  ⟨by decide, by decide,
    ((get_present_modes_mailbox_first (fun _ => 77) 3 [9, 9, 9, 9]).2
      (by decide) (by decide)).2.2.1,
    ((get_present_modes_mailbox_first (fun _ => 77) 3 [9, 9, 9, 9]).2
      (by decide) (by decide)).2.2.2⟩

/-! ## Swapchain teardown -/

theorem destroy_images_eq (images : List wsi_wl_image) :
    destroy_images images =
      (images.filter (fun im => im.buffer.isSome)).map
        (fun im => Effect.free_wsi_image im.image im.memory) := by
  induction images with
  | nil => rfl
  | cons im rest ih =>
    unfold destroy_images
    cases hb : im.buffer with
    | none => simp [List.filter_cons, hb, ih]
    | some b => simp [List.filter_cons, hb, ih]

/-- C13, as stated, fails on the swapchain that construction tears down after the
allocator failed for the second of two slots: for slot 1, whose buffer handle is null,
the external deallocator is not invoked; the only deallocator call is the one for
slot 0. -/
theorem destroy_skips_slot_with_null_buffer :
    init_images sample_env_alloc_fails 0 [⟨0, 0, none, true⟩, ⟨0, 0, none, true⟩]
      = (some VK_ERROR_OUT_OF_HOST_MEMORY, sample_chain_half_built.images, []) ∧
    (sample_chain_half_built.images[1]?).map (fun im => (im.image, im.memory, im.buffer))
      = some (0, 0, none) ∧
    wsi_wl_swapchain_destroy sample_chain_half_built
      = (VK_SUCCESS, [Effect.free_wsi_image 10 20, Effect.vk_free_chain]) ∧
    Effect.free_wsi_image 0 0 ∉ (wsi_wl_swapchain_destroy sample_chain_half_built).2 := by
  refine ⟨?_, ?_, ?_, ?_⟩ <;> decide

/-- C13, amended: for every swapchain, also a partially constructed one,
`wsi_wl_swapchain_destroy` returns success after it went through the slots in order and
invoked the external deallocator for the image and memory of exactly the slots whose
buffer handle is not null, and then freed the swapchain block; a slot whose buffer
handle is null is skipped altogether. -/
theorem destroy_frees_images_with_buffer (chain : wsi_wl_swapchain) :
    wsi_wl_swapchain_destroy chain =
      (VK_SUCCESS,
        (chain.images.filter (fun im => im.buffer.isSome)).map
          (fun im => Effect.free_wsi_image im.image im.memory) ++ [Effect.vk_free_chain]) := by
  unfold wsi_wl_swapchain_destroy
  rw [destroy_images_eq]

/-- C13, witness: the teardown of the partially constructed `sample_chain_half_built`. -/
theorem destroy_frees_images_with_buffer_witness :
    (wsi_wl_swapchain_destroy sample_chain_half_built).2
      = [Effect.free_wsi_image 10 20, Effect.vk_free_chain] :=
  (congrArg Prod.snd (destroy_frees_images_with_buffer sample_chain_half_built)).trans
    (by decide)

/-! ## Image count of a constructed swapchain -/

/-- C14, as stated, fails: a request for one image in the unthrottled (mailbox) mode is
served with success and a swapchain of one image. -/
theorem mailbox_swapchain_with_one_image :
    wsi_wl_surface_create_swapchain ⟨3, 1⟩ (sample_info 1 VK_PRESENT_MODE_MAILBOX_KHR)
        sample_env
      = some
          { result := VK_SUCCESS
            swapchain_out :=
              some { sample_chain_fresh with present_mode := VK_PRESENT_MODE_MAILBOX_KHR }
            effects := [] } ∧
    ({ sample_chain_fresh with present_mode := VK_PRESENT_MODE_MAILBOX_KHR }
      : wsi_wl_swapchain).image_count = 1 ∧
    ¬ 4 ≤ ({ sample_chain_fresh with present_mode := VK_PRESENT_MODE_MAILBOX_KHR }
      : wsi_wl_swapchain).image_count := by
  refine ⟨?_, ?_, ?_⟩ <;> decide

/-- C14, amended: a swapchain that construction hands back has exactly as many images
as the request's `minImageCount`, in every present mode; it has at least 4 images
whenever the request honours the minimum image count that
`wsi_wl_surface_get_capabilities` reports, which is 4. -/
theorem created_image_count_is_requested (surface : VkIcdSurfaceWayland)
    (info : VkSwapchainCreateInfoKHR) (env : CreateEnv) (out : CreateOutcome)
    (chain : wsi_wl_swapchain)
    (hcreate : wsi_wl_surface_create_swapchain surface info env = some out)
    (hout : out.swapchain_out = some chain) :
    chain.image_count = info.minImageCount ∧
    chain.present_mode = info.presentMode ∧
    wsi_wl_surface_get_capabilities.1 = VK_SUCCESS ∧
    wsi_wl_surface_get_capabilities.2.minImageCount = 4 ∧
    (wsi_wl_surface_get_capabilities.2.minImageCount ≤ info.minImageCount →
      4 ≤ chain.image_count) := by
  obtain ⟨_, hcount, _, _, hmode⟩ :=
    create_swapchain_spec surface info env out chain hcreate hout
  refine ⟨hcount, hmode, rfl, rfl, ?_⟩
  intro h
  rw [hcount]
  exact h

/-- C14, witness: a mailbox request for four images. -/
theorem created_image_count_is_requested_witness :
    wsi_wl_surface_create_swapchain ⟨3, 1⟩ (sample_info 4 VK_PRESENT_MODE_MAILBOX_KHR)
        sample_env
      = some ⟨VK_SUCCESS,
          some { sample_chain_four with present_mode := VK_PRESENT_MODE_MAILBOX_KHR }, []⟩ ∧
    4 ≤ ({ sample_chain_four with present_mode := VK_PRESENT_MODE_MAILBOX_KHR }
      : wsi_wl_swapchain).image_count :=
  ⟨by decide,
    (created_image_count_is_requested ⟨3, 1⟩ (sample_info 4 VK_PRESENT_MODE_MAILBOX_KHR)
      sample_env
      ⟨VK_SUCCESS,
        some { sample_chain_four with present_mode := VK_PRESENT_MODE_MAILBOX_KHR }, []⟩
      { sample_chain_four with present_mode := VK_PRESENT_MODE_MAILBOX_KHR }
      (by decide) rfl).2.2.2.2 (by decide)⟩

/-! ## Failed handshakes -/

/-- C11: failed handshakes are not cached. For a handle without entry in the registry:
when the first round trip leaves the buffer-sharing object unbound, or the second leaves
the prime capability bit clear, `wsi_wl_display_create` returns NULL; and whenever it
returns NULL, `wsi_wl_get_display` returns NULL and leaves the table as it was, without
an entry for the handle, so that the next resolution of the handle calls
`wsi_wl_display_create` again and, when that handshake succeeds and nobody else
published the handle, returns and publishes the new record. -/
theorem failed_handshake_not_cached (wsi : wsi_wayland) (wl_display : Nat)
    (env : HandshakeEnv)
    (interim : List (Nat × wsi_wl_display) → List (Nat × wsi_wl_display))
    (habsent : _mesa_hash_table_search wsi.displays wl_display = none) :
    (∀ (registry : Nat) (display1 : wsi_wl_display),
      env.display_alloc = true → env.vector_init = true →
      env.get_registry = some registry →
      handshake_roundtrip wsi (empty_display wl_display) env.round1 = some display1 →
      display1.drm = none →
      wsi_wl_display_create wsi wl_display env
        = some (none, DisplayEffect.wl_registry_destroy registry ::
            wsi_wl_display_destroy display1)) ∧
    (∀ (registry : Nat) (display1 display2 : wsi_wl_display),
      env.display_alloc = true → env.vector_init = true →
      env.get_registry = some registry →
      handshake_roundtrip wsi (empty_display wl_display) env.round1 = some display1 →
      display1.drm ≠ none →
      handshake_roundtrip wsi display1 env.round2 = some display2 →
      display2.capabilities &&& WL_DRM_CAPABILITY_PRIME = 0 →
      wsi_wl_display_create wsi wl_display env
        = some (none, DisplayEffect.wl_registry_destroy registry ::
            wsi_wl_display_destroy display2)) ∧
    (∀ effects : List DisplayEffect,
      wsi_wl_display_create wsi wl_display env = some (none, effects) →
      wsi_wl_get_display wsi wl_display env interim
        = some { result := none, displays := wsi.displays, effects := effects,
                 constructed := true, published := false } ∧
      ∀ (out : GetDisplayOutcome) (env2 : HandshakeEnv)
        (interim2 : List (Nat × wsi_wl_display) → List (Nat × wsi_wl_display))
        (display2 : wsi_wl_display) (effects2 : List DisplayEffect),
        wsi_wl_get_display wsi wl_display env interim = some out →
        wsi_wl_display_create wsi wl_display env2 = some (some display2, effects2) →
        _mesa_hash_table_search (interim2 out.displays) wl_display = none →
        wsi_wl_get_display { wsi with displays := out.displays } wl_display env2 interim2
          = some { result := some display2
                   displays := interim2 out.displays ++ [(wl_display, display2)]
                   effects := effects2
                   constructed := true
                   published := true }) := by
  refine ⟨?_, ?_, ?_⟩
  · intro registry display1 halloc hinit hreg hround1 hdrm
    simp [wsi_wl_display_create, halloc, hinit, hreg, hround1, hdrm, display_create_fail]
  · intro registry display1 display2 halloc hinit hreg hround1 hdrm hround2 hcaps
    simp [wsi_wl_display_create, halloc, hinit, hreg, hround1, hdrm, hround2, hcaps,
      display_create_fail]
  · intro effects hcreate
    have hget : wsi_wl_get_display wsi wl_display env interim
        = some { result := none, displays := wsi.displays, effects := effects,
                 constructed := true, published := false } := by
      simp [wsi_wl_get_display, habsent, hcreate]
    refine ⟨hget, ?_⟩
    intro out env2 interim2 display2 effects2 hout hcreate2 hinterim
    rw [hget] at hout
    cases hout
    simp only at hinterim ⊢
    simp [wsi_wl_get_display, habsent, hcreate2, get_display_publish, hinterim,
      _mesa_hash_table_insert]

/-- C11, witness: the compositor does not advertise `wl_drm` at the first attempt; the
registry stays empty, and the second attempt, with a complete handshake, publishes the
connection. -/
theorem failed_handshake_not_cached_witness :
    _mesa_hash_table_search sample_wsi_all.displays 3 = none ∧
    wsi_wl_display_create sample_wsi_all 3 sample_handshake_no_drm
      = some (none, DisplayEffect.wl_registry_destroy 8 ::
          wsi_wl_display_destroy (empty_display 3)) ∧
    wsi_wl_get_display sample_wsi_all 3 sample_handshake_no_drm id
      = some { result := none, displays := sample_wsi_all.displays,
               effects := DisplayEffect.wl_registry_destroy 8 ::
                 wsi_wl_display_destroy (empty_display 3),
               constructed := true, published := false } ∧
    wsi_wl_get_display { sample_wsi_all with displays := [] } 3 sample_handshake id
      = some { result := some ⟨3, some 4, [50, 44], 1⟩
               displays := [(3, ⟨3, some 4, [50, 44], 1⟩)]
               effects := [DisplayEffect.wl_registry_destroy 8]
               constructed := true
               published := true } :=
  let h := failed_handshake_not_cached sample_wsi_all 3 sample_handshake_no_drm id
    (by decide)
  ⟨by decide,
    h.1 8 (empty_display 3) rfl rfl rfl (by decide) rfl,
    (h.2.2 _ (h.1 8 (empty_display 3) rfl rfl rfl (by decide) rfl)).1,
    (h.2.2 _ (h.1 8 (empty_display 3) rfl rfl rfl (by decide) rfl)).2
      { result := none, displays := [],
        effects := DisplayEffect.wl_registry_destroy 8 ::
          wsi_wl_display_destroy (empty_display 3),
        constructed := true, published := false }
      sample_handshake id ⟨3, some 4, [50, 44], 1⟩ [DisplayEffect.wl_registry_destroy 8]
      (by decide) (by decide) (by decide)⟩

/-! ## One connection per handle -/

theorem search_key (table : List (Nat × wsi_wl_display)) (key : Nat)
    (entry : Nat × wsi_wl_display) (h : _mesa_hash_table_search table key = some entry) :
    entry.1 = key := by
  have := List.find?_some h
  simpa using this

theorem search_append_some (table extra : List (Nat × wsi_wl_display)) (key : Nat)
    (entry : Nat × wsi_wl_display) (h : _mesa_hash_table_search table key = some entry) :
    _mesa_hash_table_search (table ++ extra) key = some entry := by
  unfold _mesa_hash_table_search at h ⊢
  rw [List.find?_append, h]
  rfl

theorem search_append_none (table : List (Nat × wsi_wl_display)) (key k : Nat)
    (c : wsi_wl_display) (h : _mesa_hash_table_search table key = none) :
    _mesa_hash_table_search (table ++ [(k, c)]) key
      = if k = key then some (k, c) else none := by
  unfold _mesa_hash_table_search at h ⊢
  rw [List.find?_append, h]
  by_cases hk : k = key
  · simp [hk]
  · simp [hk]

/-- The second locked section when the handle has an entry: the table is left as it
is, the candidate is destroyed, the record of the entry is returned. -/
theorem publish_found (displays : List (Nat × wsi_wl_display)) (wl_display : Nat)
    (candidate : wsi_wl_display) (entry : Nat × wsi_wl_display)
    (h : _mesa_hash_table_search displays wl_display = some entry) :
    get_display_publish displays wl_display candidate
      = some { result := some entry.2, displays := displays,
               effects := wsi_wl_display_destroy candidate, constructed := true,
               published := false } := by
  simp [get_display_publish, h]

/-- The second locked section when the handle has no entry: the candidate is inserted
and returned. -/
theorem publish_absent (displays : List (Nat × wsi_wl_display)) (wl_display : Nat)
    (candidate : wsi_wl_display)
    (h : _mesa_hash_table_search displays wl_display = none) :
    get_display_publish displays wl_display candidate
      = some { result := some candidate, displays := displays ++ [(wl_display, candidate)],
               effects := [], constructed := true, published := true } := by
  simp [get_display_publish, h, _mesa_hash_table_insert]

/-- What one atomic step does to the table and what it reports. -/
theorem registry_step_spec (displays : List (Nat × wsi_wl_display)) (step : RegistryStep) :
    ∃ record displays1, registry_step displays step = some (record, displays1) ∧
      (∀ key entry, _mesa_hash_table_search displays key = some entry →
        _mesa_hash_table_search displays1 key = some entry) ∧
      (record.published = true →
        _mesa_hash_table_search displays record.wl_display = none) ∧
      (∀ d, record.result = some d →
        _mesa_hash_table_search displays1 record.wl_display = some (record.wl_display, d)) ∧
      (∀ c, record.candidate = some c →
        (record.published = true ∧ record.effects = []) ∨
          (record.published = false ∧ record.effects = wsi_wl_display_destroy c)) ∧
      (∀ key, key ≠ record.wl_display → _mesa_hash_table_search displays key = none →
        _mesa_hash_table_search displays1 key = none) ∧
      (∀ c, step = RegistryStep.publish record.wl_display c →
        _mesa_hash_table_search displays record.wl_display = none →
        record.published = true) ∧
      (∀ key c, step = RegistryStep.publish key c → record.wl_display = key) ∧
      (record.published = true → ∃ d, record.result = some d) := by
  cases step with
  | lookup wl_display =>
    refine ⟨_, _, rfl, fun _ _ h => h, ?_, ?_, ?_, fun _ _ h => h, ?_, ?_, ?_⟩
    · intro h
      cases h
    · intro d hd
      simp only [Option.map_eq_some'] at hd
      obtain ⟨entry, he, hd⟩ := hd
      have hk := search_key _ _ _ he
      rw [he]
      congr 1
      exact Prod.ext hk hd
    · intro c hc
      cases hc
    · intro c hc
      cases hc
    · intro key c hc
      cases hc
    · intro h
      cases h
  | publish wl_display candidate =>
    cases hs : _mesa_hash_table_search displays wl_display with
    | some entry =>
      have hk := search_key _ _ _ hs
      refine ⟨{ wl_display := wl_display, candidate := some candidate,
                result := some entry.2, published := false,
                effects := wsi_wl_display_destroy candidate }, displays,
        by simp only [registry_step, publish_found _ _ _ _ hs],
        fun _ _ h => h, ?_, ?_, ?_, fun _ _ h => h, ?_, ?_, ?_⟩
      · intro h
        cases h
      · intro d hd
        simp only [Option.some.injEq] at hd
        rw [hs]
        congr 1
        exact Prod.ext hk hd
      · intro c hc
        simp only [Option.some.injEq] at hc
        subst hc
        exact Or.inr ⟨rfl, rfl⟩
      · intro c _ habs
        rw [hs] at habs
        cases habs
      · intro key c hc
        cases hc
        rfl
      · intro h
        cases h
    | none =>
      refine ⟨{ wl_display := wl_display, candidate := some candidate,
                result := some candidate, published := true, effects := [] },
        displays ++ [(wl_display, candidate)],
        by simp only [registry_step, publish_absent _ _ _ hs],
        fun key entry h => search_append_some _ _ _ _ h, fun _ => hs, ?_, ?_, ?_, ?_, ?_,
        fun _ => ⟨candidate, rfl⟩⟩
      · intro d hd
        simp only [Option.some.injEq] at hd
        subst hd
        show _mesa_hash_table_search (displays ++ [(wl_display, candidate)]) wl_display = _
        rw [search_append_none _ _ _ _ hs, if_pos rfl]
      · intro c hc
        simp only [Option.some.injEq] at hc
        subst hc
        exact Or.inl ⟨rfl, rfl⟩
      · intro key hkey habs
        show _mesa_hash_table_search (displays ++ [(wl_display, candidate)]) key = none
        rw [search_append_none _ _ _ _ habs, if_neg (fun e => hkey e.symm)]
      · intro _ _ _
        rfl
      · intro key c hc
        cases hc
        rfl

theorem run_sections_cons (displays displays1 : List (Nat × wsi_wl_display))
    (step : RegistryStep) (rest : List RegistryStep) (record : SectionRecord)
    (h : registry_step displays step = some (record, displays1)) :
    run_sections displays (step :: rest) =
      (record :: (run_sections displays1 rest).1, (run_sections displays1 rest).2) := by
  simp only [run_sections, h]

theorem publications_cons (record : SectionRecord) (records : List SectionRecord)
    (key : Nat) :
    publications (record :: records) key =
      publications records key +
        (if record.wl_display = key ∧ record.published = true then 1 else 0) := by
  unfold publications
  rw [List.countP_cons]
  by_cases h : record.wl_display = key ∧ record.published = true
  · simp [h]
  · rw [if_neg h]
    have : ((record.wl_display == key && record.published) = true) ↔
        (record.wl_display = key ∧ record.published = true) := by simp
    rw [if_neg (fun hh => h (this.mp hh))]

/-- An entry of the table is never replaced or removed by later steps, and no later
step inserts a record for its handle. -/
theorem run_sections_stable (steps : List RegistryStep)
    (displays : List (Nat × wsi_wl_display)) (key : Nat) (entry : Nat × wsi_wl_display)
    (h : _mesa_hash_table_search displays key = some entry) :
    _mesa_hash_table_search (run_sections displays steps).2 key = some entry ∧
      publications (run_sections displays steps).1 key = 0 := by
  induction steps generalizing displays with
  | nil => exact ⟨h, rfl⟩
  | cons step rest ih =>
    obtain ⟨record, displays1, hstep, s1, s2, _⟩ := registry_step_spec displays step
    rw [run_sections_cons _ _ _ _ _ hstep]
    obtain ⟨i1, i2⟩ := ih displays1 (s1 key entry h)
    refine ⟨i1, ?_⟩
    rw [publications_cons, i2]
    have hno : ¬ (record.wl_display = key ∧ record.published = true) := by
      rintro ⟨hk, hp⟩
      have habs := s2 hp
      rw [hk, h] at habs
      cases habs
    rw [if_neg hno]

/-- Every record a step returns is the one the table holds for the handle at the end of
the run. -/
theorem run_sections_results (steps : List RegistryStep)
    (displays : List (Nat × wsi_wl_display)) (record : SectionRecord)
    (d : wsi_wl_display) (hmem : record ∈ (run_sections displays steps).1)
    (hres : record.result = some d) :
    _mesa_hash_table_search (run_sections displays steps).2 record.wl_display
      = some (record.wl_display, d) := by
  induction steps generalizing displays with
  | nil => simp [run_sections] at hmem
  | cons step rest ih =>
    obtain ⟨first, displays1, hstep, _, _, s3, _⟩ := registry_step_spec displays step
    rw [run_sections_cons _ _ _ _ _ hstep] at hmem ⊢
    simp only [List.mem_cons] at hmem
    rcases hmem with hfirst | hrest
    · subst hfirst
      exact (run_sections_stable rest displays1 _ _ (s3 d hres)).1
    · exact ih displays1 hrest

/-- Every candidate brought to the second locked section is inserted, or destroyed. -/
theorem run_sections_candidates (steps : List RegistryStep)
    (displays : List (Nat × wsi_wl_display)) (record : SectionRecord)
    (c : wsi_wl_display) (hmem : record ∈ (run_sections displays steps).1)
    (hcand : record.candidate = some c) :
    (record.published = true ∧ record.effects = []) ∨
      (record.published = false ∧ record.effects = wsi_wl_display_destroy c) := by
  induction steps generalizing displays with
  | nil => simp [run_sections] at hmem
  | cons step rest ih =>
    obtain ⟨first, displays1, hstep, _, _, _, s4, _⟩ := registry_step_spec displays step
    rw [run_sections_cons _ _ _ _ _ hstep] at hmem
    simp only [List.mem_cons] at hmem
    rcases hmem with hfirst | hrest
    · subst hfirst
      exact s4 c hcand
    · exact ih displays1 hrest

/-- At most one step of a run inserts a record for a given handle. -/
theorem run_sections_publications_le (steps : List RegistryStep)
    (displays : List (Nat × wsi_wl_display)) (key : Nat) :
    publications (run_sections displays steps).1 key ≤ 1 := by
  induction steps generalizing displays with
  | nil => simp [run_sections, publications]
  | cons step rest ih =>
    obtain ⟨record, displays1, hstep, _, _, s3, _, _, _, _, s8⟩ :=
      registry_step_spec displays step
    rw [run_sections_cons _ _ _ _ _ hstep, publications_cons]
    by_cases hp : record.wl_display = key ∧ record.published = true
    · rw [if_pos hp]
      obtain ⟨d, hd⟩ := s8 hp.2
      have hentry := s3 d hd
      rw [hp.1] at hentry
      rw [(run_sections_stable rest displays1 key _ hentry).2]
    · rw [if_neg hp]
      exact ih displays1

/-- When the handle has no entry and some thread brings a candidate for it, exactly one
step of the run inserts a record for the handle. -/
theorem run_sections_publications_eq (steps : List RegistryStep)
    (displays : List (Nat × wsi_wl_display)) (key : Nat) (c : wsi_wl_display)
    (habsent : _mesa_hash_table_search displays key = none)
    (hmem : RegistryStep.publish key c ∈ steps) :
    publications (run_sections displays steps).1 key = 1 := by
  induction steps generalizing displays with
  | nil => simp at hmem
  | cons step rest ih =>
    obtain ⟨record, displays1, hstep, _, _, _, _, s5, s6, s7, _⟩ :=
      registry_step_spec displays step
    rw [run_sections_cons _ _ _ _ _ hstep, publications_cons]
    by_cases hk : record.wl_display = key
    · by_cases hp : record.published = true
      · rw [if_pos ⟨hk, hp⟩]
        have hle := run_sections_publications_le (step :: rest) displays key
        rw [run_sections_cons _ _ _ _ _ hstep, publications_cons, if_pos ⟨hk, hp⟩] at hle
        omega
      · rw [if_neg (fun h => hp h.2)]
        simp only [List.mem_cons] at hmem
        rcases hmem with hfirst | hrest
        · exfalso
          rw [← hk] at hfirst
          exact hp (s6 c hfirst.symm (hk ▸ habsent))
        · have habs1 : _mesa_hash_table_search displays1 key = none := by
            cases step with
            | lookup wl =>
              simp only [registry_step, Option.some.injEq, Prod.mk.injEq] at hstep
              rw [← hstep.2]
              exact habsent
            | publish wl cand =>
              exfalso
              have hwl := s7 wl cand rfl
              rw [hwl] at hk
              subst hk
              exact hp (s6 cand (by rw [hwl]) (by rw [hwl]; exact habsent))
          exact ih displays1 habs1 hrest
    · rw [if_neg (fun h => hk h.1)]
      simp only [List.mem_cons] at hmem
      rcases hmem with hfirst | hrest
      · exfalso
        exact hk (s7 key c hfirst.symm)
      · exact ih displays1 (s5 key (fun e => hk e.symm) habsent) hrest

/-- What destroying a connection record releases: the catalog, the bound `wl_drm`
object when there is one, and the record itself, in this order. -/
theorem display_destroy_eq (display : wsi_wl_display) :
    wsi_wl_display_destroy display =
      DisplayEffect.u_vector_finish ::
        ((display.drm.map DisplayEffect.wl_drm_destroy).toList ++
          [DisplayEffect.vk_free_display]) := by
  unfold wsi_wl_display_destroy
  cases display.drm <;> rfl

/-- C12: at most one connection per handle. In the second locked section of
`wsi_wl_get_display` an existing entry is never overwritten: the candidate is destroyed,
that is, its catalog is finished, its bound `wl_drm` object is destroyed and its record
is freed, and the record of the entry is returned; the candidate is inserted and
returned, with nothing released, exactly when no entry exists. A handle with an entry at
the first lookup is returned without construction, without release and without change
to the table; a call that built a candidate ends with the second locked section on the
table as the other threads left it, losing the race with the candidate destroyed or
winning it with the candidate inserted. Hence, along every sequence of such atomic
steps of any number of threads, at most one step inserts a record for a given handle,
exactly one when the handle had no entry and some thread brings a candidate; an entry,
once in the table, stays as it is; every record returned for the handle is the one the
table holds at the end; and every candidate that was not inserted was destroyed, with
exactly those three releases. -/
theorem one_connection_per_handle :
    (∀ (displays : List (Nat × wsi_wl_display)) (wl_display : Nat)
        (candidate : wsi_wl_display) (entry : Nat × wsi_wl_display),
      _mesa_hash_table_search displays wl_display = some entry →
      get_display_publish displays wl_display candidate
        = some { result := some entry.2, displays := displays,
                 effects :=
                   DisplayEffect.u_vector_finish ::
                     ((candidate.drm.map DisplayEffect.wl_drm_destroy).toList ++
                       [DisplayEffect.vk_free_display]),
                 constructed := true, published := false }) ∧
    (∀ (displays : List (Nat × wsi_wl_display)) (wl_display : Nat)
        (candidate : wsi_wl_display),
      _mesa_hash_table_search displays wl_display = none →
      get_display_publish displays wl_display candidate
        = some { result := some candidate
                 displays := displays ++ [(wl_display, candidate)]
                 effects := [], constructed := true, published := true } ∧
      _mesa_hash_table_search (displays ++ [(wl_display, candidate)]) wl_display
        = some (wl_display, candidate)) ∧
    (∀ (wsi : wsi_wayland) (wl_display : Nat) (env : HandshakeEnv)
        (interim : List (Nat × wsi_wl_display) → List (Nat × wsi_wl_display))
        (entry : Nat × wsi_wl_display),
      _mesa_hash_table_search wsi.displays wl_display = some entry →
      wsi_wl_get_display wsi wl_display env interim
        = some { result := some entry.2, displays := wsi.displays, effects := [],
                 constructed := false, published := false }) ∧
    (∀ (wsi : wsi_wayland) (wl_display : Nat) (env : HandshakeEnv)
        (interim : List (Nat × wsi_wl_display) → List (Nat × wsi_wl_display))
        (candidate : wsi_wl_display) (effects : List DisplayEffect),
      _mesa_hash_table_search wsi.displays wl_display = none →
      wsi_wl_display_create wsi wl_display env = some (some candidate, effects) →
      wsi_wl_get_display wsi wl_display env interim
          = (get_display_publish (interim wsi.displays) wl_display candidate).map
              (fun out => { out with effects := effects ++ out.effects }) ∧
      (∀ entry, _mesa_hash_table_search (interim wsi.displays) wl_display = some entry →
        wsi_wl_get_display wsi wl_display env interim
          = some { result := some entry.2, displays := interim wsi.displays,
                   effects :=
                     effects ++
                       DisplayEffect.u_vector_finish ::
                         ((candidate.drm.map DisplayEffect.wl_drm_destroy).toList ++
                           [DisplayEffect.vk_free_display]),
                   constructed := true, published := false }) ∧
      (_mesa_hash_table_search (interim wsi.displays) wl_display = none →
        wsi_wl_get_display wsi wl_display env interim
          = some { result := some candidate
                   displays := interim wsi.displays ++ [(wl_display, candidate)]
                   effects := effects, constructed := true, published := true })) ∧
    (∀ (displays : List (Nat × wsi_wl_display)) (steps : List RegistryStep)
        (wl_display : Nat),
      publications (run_sections displays steps).1 wl_display ≤ 1 ∧
      (∀ entry, _mesa_hash_table_search displays wl_display = some entry →
        _mesa_hash_table_search (run_sections displays steps).2 wl_display = some entry ∧
        publications (run_sections displays steps).1 wl_display = 0) ∧
      (∀ candidate, _mesa_hash_table_search displays wl_display = none →
        RegistryStep.publish wl_display candidate ∈ steps →
        publications (run_sections displays steps).1 wl_display = 1) ∧
      (∀ record ∈ (run_sections displays steps).1, ∀ d,
        record.wl_display = wl_display → record.result = some d →
        _mesa_hash_table_search (run_sections displays steps).2 wl_display
          = some (wl_display, d)) ∧
      (∀ record ∈ (run_sections displays steps).1, ∀ candidate,
        record.candidate = some candidate →
        (record.published = true ∧ record.effects = []) ∨
          (record.published = false ∧
            record.effects =
              DisplayEffect.u_vector_finish ::
                ((candidate.drm.map DisplayEffect.wl_drm_destroy).toList ++
                  [DisplayEffect.vk_free_display]) ∧
            DisplayEffect.u_vector_finish ∈ record.effects ∧
            DisplayEffect.vk_free_display ∈ record.effects ∧
            ∀ drm, candidate.drm = some drm →
              DisplayEffect.wl_drm_destroy drm ∈ record.effects))) := by
  refine ⟨?_, ?_, ?_, ?_, ?_⟩
  · intro displays wl_display candidate entry h
    rw [publish_found displays wl_display candidate entry h, display_destroy_eq]
  · intro displays wl_display candidate h
    refine ⟨publish_absent displays wl_display candidate h, ?_⟩
    rw [search_append_none _ _ _ _ h, if_pos rfl]
  · intro wsi wl_display env interim entry h
    simp [wsi_wl_get_display, h]
  · intro wsi wl_display env interim candidate effects habsent hcreate
    have hmap : wsi_wl_get_display wsi wl_display env interim
        = (get_display_publish (interim wsi.displays) wl_display candidate).map
            (fun out => { out with effects := effects ++ out.effects }) := by
      simp only [wsi_wl_get_display, habsent, hcreate]
      cases get_display_publish (interim wsi.displays) wl_display candidate <;> rfl
    refine ⟨hmap, ?_, ?_⟩
    · intro entry hentry
      rw [hmap, publish_found _ _ _ _ hentry, display_destroy_eq]
      rfl
    · intro hnone
      rw [hmap, publish_absent _ _ _ hnone]
      simp
  · intro displays steps wl_display
    refine ⟨run_sections_publications_le steps displays wl_display, ?_, ?_, ?_, ?_⟩
    · intro entry h
      exact run_sections_stable steps displays wl_display entry h
    · intro candidate habsent hmem
      exact run_sections_publications_eq steps displays wl_display candidate habsent hmem
    · intro record hmem d hkey hres
      have := run_sections_results steps displays record d hmem hres
      rw [hkey] at this
      exact this
    · intro record hmem candidate hcand
      rcases run_sections_candidates steps displays record candidate hmem hcand with h | h
      · exact Or.inl h
      · right
        have heff : record.effects =
            DisplayEffect.u_vector_finish ::
              ((candidate.drm.map DisplayEffect.wl_drm_destroy).toList ++
                [DisplayEffect.vk_free_display]) := by
          rw [h.2, display_destroy_eq]
        refine ⟨h.1, heff, ?_, ?_, ?_⟩
        · rw [heff]
          exact List.mem_cons_self _ _
        · rw [heff]
          simp
        · intro drm hdrm
          rw [heff, hdrm]
          simp

/-- C12, witness: in `sample_race` three threads resolve the connection 3 on an empty
registry and two bring a candidate; one record is inserted, the table ends with the
record of the thread that took the mutex first, the candidate of the other thread is
destroyed with its catalog finished, its `wl_drm` object 4 destroyed and its record
freed, and a call that finds the entry at its first lookup returns it without
construction. -/
theorem one_connection_per_handle_witness :
    _mesa_hash_table_search [] 3 = none ∧
    RegistryStep.publish 3 sample_display ∈ sample_race ∧
    publications (run_sections [] sample_race).1 3 = 1 ∧
    (run_sections [] sample_race).2 = [(3, sample_display_other)] ∧
    get_display_publish [(3, sample_display_other)] 3 sample_display
      = some { result := some sample_display_other
               displays := [(3, sample_display_other)]
               effects :=
                 [DisplayEffect.u_vector_finish, DisplayEffect.wl_drm_destroy 4,
                   DisplayEffect.vk_free_display]
               constructed := true, published := false } ∧
    wsi_wl_get_display sample_wsi_all 3 sample_handshake
        (fun table => table ++ [(3, sample_display_other)])
      = some { result := some sample_display_other
               displays := [(3, sample_display_other)]
               effects :=
                 [DisplayEffect.wl_registry_destroy 8, DisplayEffect.u_vector_finish,
                   DisplayEffect.wl_drm_destroy 4, DisplayEffect.vk_free_display]
               constructed := true, published := false } ∧
    wsi_wl_get_display { sample_wsi_all with displays := [(3, sample_display_other)] } 3
        sample_handshake id
      = some { result := some sample_display_other
               displays := [(3, sample_display_other)]
               effects := [], constructed := false, published := false } :=
  ⟨by decide, by decide,
    (one_connection_per_handle.2.2.2.2 [] sample_race 3).2.2.1 sample_display
      (by decide) (by decide),
    by decide,
    one_connection_per_handle.1 [(3, sample_display_other)] 3 sample_display
      (3, sample_display_other) (by decide),
    (one_connection_per_handle.2.2.2.1 sample_wsi_all 3 sample_handshake
      (fun table => table ++ [(3, sample_display_other)])
      ⟨3, some 4, [50, 44], 1⟩ [DisplayEffect.wl_registry_destroy 8]
      (by decide) (by decide)).2.1 (3, sample_display_other) (by decide),
    one_connection_per_handle.2.2.1
      { sample_wsi_all with displays := [(3, sample_display_other)] } 3 sample_handshake id
      (3, sample_display_other) (by decide)⟩

end WsiWayland
